import Mathlib

/-!
Verification of the five-stage graph-construction pipeline of the
AI-Visibility-Optimization app (Ontology Builder → Entity Expander →
Taxonomy Builder → Query Mapper → Hub Designer).

The Python sources under `src/` are shallowly embedded below: pure functions
become Lean functions; Python dicts (insertion-ordered, set-or-replace)
become association lists over `String` keys; Python floats for the [0,1]
scores become rationals; Python sets that are immediately list-ified become
first-occurrence-deduplicated lists.
-/

namespace AIVis

/-! ## Character/string utilities mirroring the Python string operations -/

/-- Python `str.lower()` restricted to ASCII, which is all the pipeline uses. -/
def pyLower (s : String) : String := ⟨s.data.map Char.toLower⟩

/-- Python whitespace test for `str.strip()` / `str.split()`. -/
def isPyWs (c : Char) : Bool := c = ' ' || c = '\t' || c = '\n' || c = '\r'

/-- Python `str.strip()`. -/
def pyStrip (s : String) : String :=
  ⟨((s.data.dropWhile isPyWs).reverse.dropWhile isPyWs).reverse⟩

/-- Python `str.split()` (split on whitespace runs, dropping empty parts). -/
def pySplitWs (s : String) : List String :=
  ((s.data.splitOn ' ').map (fun l => (⟨l⟩ : String))).filter (fun w => w ≠ "")

/-- Does `pat` occur at the start of `s`? (list-of-chars version). -/
def startsSeq : List Char → List Char → Bool
  | [], _ => true
  | _ :: _, [] => false
  | a :: as, b :: bs => a = b && startsSeq as bs

/-- Python `pat in s` substring test (list-of-chars version). -/
def containsSeq (pat : List Char) : List Char → Bool
  | [] => startsSeq pat []
  | c :: rest => startsSeq pat (c :: rest) || containsSeq pat rest

/-- Python `a in b` on strings. -/
def pyInStr (a b : String) : Bool := containsSeq a.data b.data

/-- Python `s.startswith(p)`. -/
def pyStartsWith (s p : String) : Bool := startsSeq p.data s.data

/-- Python `s.endswith(p)`. -/
def pyEndsWith (s p : String) : Bool := startsSeq p.data.reverse s.data.reverse

/-- Fuel-driven helper for `str.replace` (the fuel is the length of the
remaining text, which suffices because all patterns used are nonempty). -/
def replaceAux (pat rep : List Char) : Nat → List Char → List Char
  | 0, l => l
  | _, [] => []
  | fuel + 1, c :: rest =>
    if startsSeq pat (c :: rest) && pat ≠ [] then
      rep ++ replaceAux pat rep fuel (List.drop pat.length (c :: rest))
    else
      c :: replaceAux pat rep fuel rest

/-- Python `s.replace(pat, rep)` (replace every occurrence). -/
def pyReplace (s pat rep : String) : String :=
  ⟨replaceAux pat.data rep.data s.data.length s.data⟩

/-- Python `", ".join(...)`-style list join. -/
def joinSep (sep : String) : List String → String
  | [] => ""
  | [x] => x
  | x :: y :: rest => x ++ sep ++ joinSep sep (y :: rest)

/-- First-occurrence deduplication (Python `list(dict.fromkeys(...))`),
also used to model a Python `set` that is immediately turned into a list. -/
def pyDedupAux {α : Type} [DecidableEq α] : List α → List α → List α
  | [], _ => []
  | x :: xs, seen => if x ∈ seen then pyDedupAux xs seen else x :: pyDedupAux xs (x :: seen)

/-- First-occurrence deduplication of a list. -/
def pyDedup {α : Type} [DecidableEq α] (l : List α) : List α := pyDedupAux l []

/-- Python `str.title()`-ish capitalisation of each word (used only for the
fallback cluster-page title). -/
def pyTitleChars : List Char → Bool → List Char
  | [], _ => []
  | c :: rest, atWordStart =>
    if c.isAlpha then
      (if atWordStart then c.toUpper else c.toLower) :: pyTitleChars rest false
    else
      c :: pyTitleChars rest true

/-- Python `s.title()`. -/
def pyTitle (s : String) : String := ⟨pyTitleChars s.data true⟩

/-- Lower-case letter or digit (the characters kept by the id slug regex). -/
def isLowerAlnum (c : Char) : Bool :=
  ('a' ≤ c && c ≤ 'z') || ('0' ≤ c && c ≤ '9')

/-- Python `re.sub(r"[^a-z0-9]+", "_", s)`: each maximal run of
non-(lower-alnum) characters becomes a single underscore.  The boolean flag
records whether the previous character was inside such a run. -/
def subNonAlnum : List Char → Bool → List Char
  | [], _ => []
  | c :: rest, inRun =>
    if isLowerAlnum c then c :: subNonAlnum rest false
    else if inRun then subNonAlnum rest true
    else '_' :: subNonAlnum rest true

/-- Hex digit character for a value below 16. -/
def hexDigit (n : Nat) : Char := if n < 10 then Char.ofNat (48 + n) else Char.ofNat (87 + n)

/-- Render `k` hex digits of a natural number (low digit first). -/
def hexRender : Nat → Nat → List Char
  | _, 0 => []
  | v, k + 1 => hexDigit (v % 16) :: hexRender (v / 16) k

/-- A deterministic polynomial hash of a character list. -/
def polyHash (l : List Char) : Nat :=
  l.foldl (fun h c => (h * 131 + c.toNat) % 1099511627776) 7

/-- Modelled from the spec: entity/node/page ids append a short hex digest of
their input produced by `hashlib.md5` from the Python standard library, which
is outside this repository.  The spec only requires the digest to be "a short
content hash", i.e. a fixed deterministic function of its input; it is
modelled as a hex rendering of a polynomial hash.  No claim below depends on
particular digest values, only on the digest being a function of its input. -/
def md5Stub (s : String) (digits : Nat) : String := ⟨hexRender (polyHash s.data) digits⟩

/-! ## Dicts: Python's insertion-ordered `dict` as an association list.
`dinsert` is `d[k] = v` (replace in place if the key exists, else append);
`dget` is `d.get(k)`; values in insertion order are `d.map (·.2)`. -/

/-- Python `d[k] = v` on an insertion-ordered dict. -/
def dinsert {α : Type} : List (String × α) → String → α → List (String × α)
  | [], k, v => [(k, v)]
  | (k', v') :: rest, k, v =>
    if k' = k then (k, v) :: rest else (k', v') :: dinsert rest k v

/-- Python `d.get(k)` (first binding of the key). -/
def dget {α : Type} (d : List (String × α)) (k : String) : Option α :=
  (d.find? (fun p => p.1 = k)).map (·.2)

/-- Python `k in d`. -/
def dcontains {α : Type} (d : List (String × α)) (k : String) : Bool :=
  d.any (fun p => p.1 = k)

/-- Python `d[k] = v` only when the key is absent (the "create if new" idiom
`if entity_id not in self.entities`). -/
def dinsertIfAbsent {α : Type} (d : List (String × α)) (k : String) (v : α) :
    List (String × α) :=
  if dcontains d k then d else d ++ [(k, v)]

/-- In-place update of the (first) binding of a key, Python's
`existing = d[k]; existing.f = ...` mutation idiom. -/
def dmodify {α : Type} : List (String × α) → String → (α → α) → List (String × α)
  | [], _, _ => []
  | (k', v') :: rest, k, f =>
    if k' = k then (k', f v') :: rest else (k', v') :: dmodify rest k f

/-! ## Data model (`src/utils/data_models.py`, `src/config/templates.py`) -/

/-- `EntityType` from `data_models.py`. -/
inductive EntityType where
  | core
  | supporting
  | competitor
  | attribute
deriving DecidableEq, Repr

/-- `RelationshipType` from `data_models.py`. -/
inductive RelationshipType where
  | isA
  | partOf
  | usedFor
  | relatesTo
  | requiresRel
  | alternativeTo
  | enables
  | contrastsWith
deriving DecidableEq, Repr

/-- `IntentType` from `data_models.py`. -/
inductive IntentType where
  | informational
  | navigational
  | commercial
  | transactional
  | local
deriving DecidableEq, Repr

/-- `ContentPriority` from `data_models.py`. -/
inductive ContentPriority where
  | critical
  | high
  | medium
  | low
deriving DecidableEq, Repr

/-- `SourceMode` from `config/templates.py`. -/
inductive SourceMode where
  | sitemap
  | seed
  | hybrid
deriving DecidableEq, Repr

/-- The free-form `Entity.attributes` dict, modelled as the attribute kinds
the pipeline actually reads and writes (niche, goals, frequency,
categories). -/
structure Attrs where
  niche : Option String := none
  goals : List String := []
  frequency : Option Nat := none
  categories : Option (List String) := none
deriving DecidableEq, Repr

/-- `Entity` from `data_models.py`; the float scores become rationals. -/
structure Entity where
  id : String
  name : String
  type : EntityType := .core
  description : Option String := none
  aliases : List String := []
  attributes : Attrs := {}
  commercial_value : ℚ := 1/2
  semantic_centrality : ℚ := 1/2
  source_urls : List String := []
deriving DecidableEq, Repr

/-- `Relationship` from `data_models.py`. -/
structure Relationship where
  source_id : String
  target_id : String
  relationship_type : RelationshipType
  weight : ℚ := 1
  context : Option String := none
  bidirectional : Bool := false
deriving DecidableEq, Repr

/-- `Ontology` from `data_models.py`. -/
structure Ontology where
  brand_name : String
  entities : List Entity := []
  relationships : List Relationship := []
deriving DecidableEq, Repr

/-- `Ontology.get_entity` (first entity with the id, else `None`). -/
def getEntity (ont : Ontology) (entity_id : String) : Option Entity :=
  ont.entities.find? (fun e => e.id = entity_id)

/-- `Ontology.get_related_entities`: forward edges always, reverse edges only
when the relationship is bidirectional; silently drops dangling ids. -/
def getRelatedEntities (ont : Ontology) (entity_id : String) :
    List (Entity × Relationship) :=
  ont.relationships.filterMap (fun rel =>
    if rel.source_id = entity_id then
      (getEntity ont rel.target_id).map (fun e => (e, rel))
    else if rel.bidirectional && rel.target_id = entity_id then
      (getEntity ont rel.source_id).map (fun e => (e, rel))
    else none)

/-- `TaxonomyNode` from `data_models.py`. -/
structure TaxonomyNode where
  id : String
  name : String
  parent_id : Option String := none
  entity_ids : List String := []
  level : Nat := 0
  facets : List String := []
  seo_title : Option String := none
  seo_description : Option String := none
  target_url : Option String := none
  internal_links_to : List String := []
deriving DecidableEq, Repr

/-- `Taxonomy` from `data_models.py`; the facet-definition sets become
deduplicated lists. -/
structure Taxonomy where
  brand_name : String
  nodes : List TaxonomyNode := []
  facet_definitions : List (String × List String) := []
deriving DecidableEq, Repr

/-- `Query` from `data_models.py`. -/
structure Query where
  query_text : String
  intent : IntentType
  entity_ids : List String := []
  estimated_volume : Option Nat := none
  priority : ContentPriority := .medium
  serp_features : List String := []
  fanout_pattern : Option String := none
deriving DecidableEq, Repr

/-- `QueryCluster` from `data_models.py`; `intent_distribution` is the Python
dict `intent value → count`, kept as an association list. -/
structure QueryCluster where
  id : String
  primary_entity_id : String
  primary_entity_name : String
  queries : List Query := []
  intent_distribution : List (IntentType × Nat) := []
  total_estimated_volume : Nat := 0
deriving DecidableEq, Repr

/-- Increment of one key of the intent-distribution dict
(`d[k] = d.get(k, 0) + 1`). -/
def bumpIntent : List (IntentType × Nat) → IntentType → List (IntentType × Nat)
  | [], k => [(k, 1)]
  | (k', n) :: rest, k =>
    if k' = k then (k', n + 1) :: rest else (k', n) :: bumpIntent rest k

/-- Lookup with default 0 in the intent-distribution dict. -/
def lookIntent (d : List (IntentType × Nat)) (k : IntentType) : Nat :=
  ((d.find? (fun p => p.1 = k)).map (·.2)).getD 0

/-- `QueryCluster.add_query`: append the query and update the incremental
statistics (a falsy — absent or zero — volume is not added). -/
def addQuery (c : QueryCluster) (q : Query) : QueryCluster :=
  { c with
    queries := c.queries ++ [q]
    intent_distribution := bumpIntent c.intent_distribution q.intent
    total_estimated_volume :=
      c.total_estimated_volume + (match q.estimated_volume with
        | some v => if v ≠ 0 then v else 0
        | none => 0) }

/-- `HubPage` from `data_models.py`. -/
structure HubPage where
  id : String
  title : String
  page_type : String
  target_queries : List String := []
  target_intents : List IntentType := []
  entity_ids : List String := []
  recommended_format : Option String := none
  recommended_word_count : Option Nat := none
  schema_types : List String := []
  internal_links_to : List String := []
  internal_links_from : List String := []
  status : String := "planned"
  priority : ContentPriority := .medium
deriving DecidableEq, Repr

/-- `ContentHub` from `data_models.py`. -/
structure ContentHub where
  id : String
  name : String
  primary_entity_id : String
  pillar_page : Option HubPage := none
  cluster_pages : List HubPage := []
  supporting_pages : List HubPage := []
  internal_link_count : Nat := 0
  coverage_score : ℚ := 0
deriving DecidableEq, Repr

/-- `ContentHub.all_pages`. -/
def allPages (h : ContentHub) : List HubPage :=
  (match h.pillar_page with
   | some p => [p]
   | none => []) ++ h.cluster_pages ++ h.supporting_pages

/-- `ContentHub.calculate_link_count` (the computed total). -/
def linkCountOf (h : ContentHub) : Nat :=
  ((allPages h).map (fun p => p.internal_links_to.length)).sum

/-- `BrandFoundationConfig` from `config/templates.py`; business goals are
carried as their string values (only ever forwarded into attribute bags). -/
structure BrandConfig where
  brand_name : String
  primary_niche : String
  business_goals : List String := []
  source_mode : SourceMode := .seed
  sitemap_url : Option String := none
  seed_entities : List String := []
  competitors : List String := []
deriving DecidableEq, Repr

/-- One entry of the list the sitemap collaborator hands to the builder
(`{name, frequency, source_urls, categories}`). -/
structure SitemapItem where
  name : String
  frequency : Nat := 1
  source_urls : List String := []
  categories : List String := []
deriving DecidableEq, Repr

/-! ## Entity Expander (`src/core/entity_search.py`) -/

/-- `EntitySearchExpander.SUFFIX_PATTERNS`. -/
def SUFFIX_PATTERNS : List (String × List String) :=
  [("tool", ["tools", "software", "platform", "app", "application"]),
   ("service", ["services", "solution", "solutions"]),
   ("guide", ["guides", "tutorial", "tutorials", "how-to"]),
   ("tips", ["tips", "advice", "best practices", "strategies"]),
   ("review", ["reviews", "comparison", "vs", "alternatives"])]

/-- `EntitySearchExpander.ABBREVIATIONS`. -/
def ABBREVIATIONS : List (String × String) :=
  [("seo", "search engine optimization"),
   ("sem", "search engine marketing"),
   ("ppc", "pay per click"),
   ("cro", "conversion rate optimization"),
   ("ux", "user experience"),
   ("ui", "user interface"),
   ("api", "application programming interface"),
   ("ai", "artificial intelligence"),
   ("ml", "machine learning"),
   ("saas", "software as a service"),
   ("b2b", "business to business"),
   ("b2c", "business to consumer"),
   ("roi", "return on investment"),
   ("kpi", "key performance indicator"),
   ("cms", "content management system"),
   ("crm", "customer relationship management")]

/-- `EntitySearchExpander._expand_abbreviations` (called on the lowered name);
the Python set of expansions is collected as a list, order irrelevant to the
final deduplicated result. -/
def expandAbbreviations (name : String) : List String :=
  let nameLower := pyLower name
  let whole := match ABBREVIATIONS.find? (fun p => p.1 = nameLower) with
    | some p => [p.2]
    | none => []
  let words := pySplitWs nameLower
  let within := (List.range words.length).filterMap (fun i =>
    match words[i]? with
    | some w =>
      match ABBREVIATIONS.find? (fun p => p.1 = w) with
      | some p => some (joinSep " " (words.set i p.2))
      | none => none
    | none => none)
  let rev := ABBREVIATIONS.filterMap (fun p =>
    if pyInStr (pyLower p.2) nameLower then
      some (pyReplace nameLower (pyLower p.2) p.1)
    else none)
  whole ++ within ++ rev

/-- `EntitySearchExpander._generate_number_variants` (singular/plural). -/
def generateNumberVariants (name : String) : List String :=
  let nameLower := pyLower name
  if pyEndsWith nameLower "s" && !pyEndsWith nameLower "ss" then
    [nameLower.dropRight 1] ++
    (if pyEndsWith nameLower "ies" then [nameLower.dropRight 3 ++ "y"]
     else if pyEndsWith nameLower "es" then [nameLower.dropRight 2]
     else [])
  else
    if pyEndsWith nameLower "y" && nameLower.length > 2 then
      if !(nameLower.data.getD (nameLower.length - 2) ' ' ∈ ['a', 'e', 'i', 'o', 'u']) then
        [nameLower.dropRight 1 ++ "ies"]
      else [nameLower ++ "s"]
    else if pyEndsWith nameLower "s" || pyEndsWith nameLower "x" ||
            pyEndsWith nameLower "z" || pyEndsWith nameLower "ch" ||
            pyEndsWith nameLower "sh" then
      [nameLower ++ "es"]
    else [nameLower ++ "s"]

/-- The camel-case splitter `re.sub("([A-Z])", r" \1", name)`: a space is
inserted before every upper-case character. -/
def camelSplitChars : List Char → List Char
  | [] => []
  | c :: rest => if c.isUpper then ' ' :: c :: camelSplitChars rest else c :: camelSplitChars rest

/-- `EntitySearchExpander._generate_format_variants` (hyphen/space/camel). -/
def generateFormatVariants (name : String) : List String :=
  let hyphenSpace :=
    if name.data.contains '-' then
      [pyReplace name "-" " ", pyReplace name "-" ""]
    else if name.data.contains ' ' then
      [pyReplace name " " "-", pyReplace name " " ""]
    else []
  let camel :=
    if !name.data.contains ' ' && !name.data.contains '-' then
      let split := pyLower (pyStrip ⟨camelSplitChars name.data⟩)
      if split ≠ pyLower name then [split, pyReplace split " " "-"] else []
    else []
  hyphenSpace ++ camel

/-- `EntitySearchExpander._generate_suffix_variants` (called on the lowered
name). -/
def generateSuffixVariants (name : String) : List String :=
  SUFFIX_PATTERNS.flatMap (fun p =>
    if pyEndsWith name p.1 then
      (p.2.filter (fun suf => suf ≠ p.1)).map (fun suf => name.dropRight p.1.length ++ suf)
    else [])

/-- `EntitySearchExpander._generate_industry_variants` (called on the lowered
name): strip a known industry prefix when present. -/
def generateIndustryVariants (name : String) : List String :=
  ["digital", "online", "cloud", "modern", "advanced"].flatMap (fun pre =>
    if pyStartsWith name (pre ++ " ") then [name.drop (pre.length + 1)] else [])

/-- All candidate alias variants the expander derives from a name (the five
generator calls of `_expand_entity`, in order). -/
def deriveVariants (name : String) : List String :=
  expandAbbreviations (pyLower name) ++
  generateNumberVariants name ++
  generateFormatVariants name ++
  generateSuffixVariants (pyLower name) ++
  generateIndustryVariants (pyLower name)

/-- The filter of `_expand_entity`: keep a candidate alias when it is
nonempty, not the entity's own lowered name, and of length at least 2. -/
def keepAlias (nameLower : String) (a : String) : Bool :=
  a ≠ "" && pyLower a ≠ nameLower && a.length ≥ 2

/-- `EntitySearchExpander._expand_entity`: the new alias set starts from the
existing aliases, adds all derived variants, filters and deduplicates.  The
Python code materialises a `set`; its arbitrary iteration order is modelled
by first-occurrence order. -/
def expandEntity (e : Entity) : Entity :=
  { e with aliases := pyDedup ((e.aliases ++ deriveVariants e.name).filter (keepAlias (pyLower e.name))) }

/-- `EntitySearchExpander.expand_all_entities`. -/
def expandAllEntities (ont : Ontology) : Ontology :=
  { ont with entities := ont.entities.map expandEntity }

/-! ## Ontology Builder (`src/core/ontology_builder.py`) -/

/-- `OntologyBuilder._generate_entity_id`: slug of the normalized name
(30 chars) plus an 8-hex-digit digest of the normalized name. -/
def generateEntityId (name : String) : String :=
  let normalized := pyStrip (pyLower name)
  let hashSuf := md5Stub normalized 8
  let slug : String := ⟨(subNonAlnum normalized.data false).take 30⟩
  slug ++ "_" ++ hashSuf

/-- `OntologyBuilder._generate_aliases` (the builder's own small alias
heuristics, applied to seed entities). -/
def builderAliases (entity_name : String) : List String :=
  let name := pyStrip entity_name
  let plural :=
    if pyEndsWith name "s" && name.length > 3 then [name.dropRight 1]
    else if !pyEndsWith name "s" then [name ++ "s"]
    else []
  let words := pySplitWs name
  let acronym :=
    if words.length > 1 then
      let acr : String := ⟨words.map (fun w => (w.data.getD 0 ' ').toUpper)⟩
      if acr.length ≥ 2 then [acr] else []
    else []
  let formats :=
    if name.data.contains '-' then [pyReplace name "-" " "]
    else if name.data.contains ' ' then [pyReplace name " " "-"]
    else []
  plural ++ acronym ++ formats

/-- The entity-dict type of the builder (`self.entities`). -/
abbrev EntityDict := List (String × Entity)

/-- `OntologyBuilder._create_from_seeds`: seed strings become `core`
entities, competitors become `competitor` entities; both only if the id is
not already present. -/
def createFromSeeds (cfg : BrandConfig) (d0 : EntityDict) : EntityDict :=
  let d1 := cfg.seed_entities.foldl (fun d seedRaw =>
    let seed := pyStrip seedRaw
    if seed = "" then d
    else
      dinsertIfAbsent d (generateEntityId seed)
        { id := generateEntityId seed
          name := seed
          type := .core
          description := none
          aliases := builderAliases seed }) d0
  cfg.competitors.foldl (fun d compRaw =>
    let comp := pyStrip compRaw
    if comp = "" then d
    else
      dinsertIfAbsent d (generateEntityId comp)
        { id := generateEntityId comp
          name := comp
          type := .competitor
          description := some ("Competitor: " ++ comp) }) d1

/-- `OntologyBuilder._extract_from_sitemap`, with the externally retrieved
candidate list passed in as data (the network fetch itself is the excluded
sitemap collaborator; a fetch failure is the empty list).  New names create
entities (`core` when frequency > 1, else `supporting`), re-encountered names
merge `source_urls` into the existing entity. -/
def extractFromSitemap (cfg : BrandConfig) (d0 : EntityDict)
    (extracted : List SitemapItem) : EntityDict :=
  match cfg.sitemap_url with
  | none => d0
  | some _ =>
    (extracted.take 50).foldl (fun d item =>
      let eid := generateEntityId item.name
      if dcontains d eid then
        dmodify d eid (fun e => { e with source_urls := e.source_urls ++ item.source_urls })
      else
        d ++ [(eid,
          { id := eid
            name := item.name
            type := if item.frequency > 1 then .core else .supporting
            source_urls := item.source_urls
            attributes := { frequency := some item.frequency, categories := some item.categories } })]) d0

/-- The brand entity created by `OntologyBuilder._add_brand_entity`, with
both scores set to 1. -/
def brandEntity (cfg : BrandConfig) : Entity :=
  { id := generateEntityId cfg.brand_name
    name := cfg.brand_name
    type := .core
    description := some ("Primary brand entity for " ++ cfg.brand_name)
    attributes := { niche := some cfg.primary_niche, goals := cfg.business_goals }
    commercial_value := 1
    semantic_centrality := 1 }

/-- `OntologyBuilder._add_brand_entity`: unconditional dict write of the
brand entity. -/
def addBrandEntity (cfg : BrandConfig) (d : EntityDict) : EntityDict :=
  dinsert d (generateEntityId cfg.brand_name) (brandEntity cfg)

/-- The stop-word set subtracted from the shared-token overlap. -/
def STOPWORDS : List String := ["the", "a", "an", "and", "or", "for", "of", "in"]

/-- `OntologyBuilder._detect_relationship`: containment gives a directed
`is_a` edge (weight 0.7) from the containing (longer) name to the contained
name; otherwise a shared non-stopword token gives a bidirectional
`relates_to` edge (weight 0.5).  The Python shared-token `set` is modelled in
first-occurrence order of the first name's words. -/
def detectRelationship (e1 e2 : Entity) : Option Relationship :=
  let name1 := pyLower e1.name
  let name2 := pyLower e2.name
  if pyInStr name1 name2 && name1 ≠ name2 then
    some { source_id := e2.id, target_id := e1.id, relationship_type := .isA,
           weight := 7/10,
           context := some ("'" ++ e2.name ++ "' contains '" ++ e1.name ++ "'") }
  else if pyInStr name2 name1 && name1 ≠ name2 then
    some { source_id := e1.id, target_id := e2.id, relationship_type := .isA,
           weight := 7/10,
           context := some ("'" ++ e1.name ++ "' contains '" ++ e2.name ++ "'") }
  else
    let words1 := pyDedup (pySplitWs name1)
    let words2 := pySplitWs name2
    let common := (words1.filter (fun w => w ∈ words2)).filter (fun w => ¬ w ∈ STOPWORDS)
    if common ≠ [] then
      some { source_id := e1.id, target_id := e2.id, relationship_type := .relatesTo,
             weight := 1/2, bidirectional := true,
             context := some ("Shared terms: " ++ joinSep ", " common) }
    else none

/-- The O(n²) pairwise pass of `_infer_relationships`: each ordered pair
(i < j) is probed once. -/
def pairRels : List Entity → List Relationship
  | [] => []
  | e :: rest => rest.filterMap (detectRelationship e) ++ pairRels rest

/-- `OntologyBuilder._infer_relationships`: brand edges (`part_of` from each
non-brand core entity, bidirectional `alternative_to` from each competitor),
then the pairwise containment/overlap pass. -/
def inferRelationships (entity_list : List Entity) (brandId : String) :
    List Relationship :=
  let typeRels := entity_list.flatMap (fun e =>
    if e.id = brandId then []
    else
      (if e.type = .core then
        [{ source_id := e.id, target_id := brandId, relationship_type := .partOf,
           weight := 8/10, context := some "Core entity of brand" : Relationship }]
       else []) ++
      (if e.type = .competitor then
        [{ source_id := e.id, target_id := brandId,
           relationship_type := .alternativeTo, weight := 6/10,
           bidirectional := true, context := some "Competitor relationship" : Relationship }]
       else []))
  typeRels ++ pairRels entity_list

/-- The per-entity degree of `_calculate_entity_scores`: appearances as
either endpoint across all relationships. -/
def relCount (rels : List Relationship) (eid : String) : Nat :=
  (rels.map (fun r =>
    (if r.source_id = eid then 1 else 0) + (if r.target_id = eid then 1 else 0))).sum

/-- `max(relationship_counts.values())` with the Python fallback of 1 for an
empty dict: the maximum degree over all endpoint ids. -/
def maxRelCount (rels : List Relationship) : Nat :=
  let mentioned := pyDedup (rels.flatMap (fun r => [r.source_id, r.target_id]))
  if mentioned = [] then 1 else (mentioned.map (relCount rels)).foldl max 0

/-- The per-entity score update of `_calculate_entity_scores`. -/
def scoreEntity (rels : List Relationship) (e : Entity) : Entity :=
  { e with
    semantic_centrality := min 1 ((relCount rels e.id : ℚ) / (maxRelCount rels : ℚ) + 1/5)
    commercial_value :=
      match e.type with
      | .core => 8/10
      | .supporting => 4/10
      | .competitor => 3/10
      | .attribute => 1/2 }

/-- The entity dict after the source-mode dispatch of `OntologyBuilder.build`
(before the brand entity is added).  The sitemap collaborator's output is a
parameter (empty on fetch failure). -/
def preBrandDict (cfg : BrandConfig) (extracted : List SitemapItem) : EntityDict :=
  match cfg.source_mode with
  | .sitemap => extractFromSitemap cfg [] extracted
  | .seed => createFromSeeds cfg []
  | .hybrid =>
    let ds := createFromSeeds cfg []
    match cfg.sitemap_url with
    | some _ => extractFromSitemap cfg ds extracted
    | none => ds

/-- The entity dict of `OntologyBuilder.build` after `_add_brand_entity`. -/
def ontDict (cfg : BrandConfig) (extracted : List SitemapItem) : EntityDict :=
  addBrandEntity cfg (preBrandDict cfg extracted)

/-- The relationship list inferred by `OntologyBuilder.build`. -/
def ontRels (cfg : BrandConfig) (extracted : List SitemapItem) : List Relationship :=
  inferRelationships ((ontDict cfg extracted).map (fun p => p.2))
    (generateEntityId cfg.brand_name)

/-- `OntologyBuilder.build`: entity creation by source mode, brand entity,
relationship inference, scoring. -/
def ontBuild (cfg : BrandConfig) (extracted : List SitemapItem) : Ontology :=
  { brand_name := cfg.brand_name
    entities := (ontDict cfg extracted).map (fun p => scoreEntity (ontRels cfg extracted) p.2)
    relationships := ontRels cfg extracted }

/-! ## Query Mapper (`src/core/query_mapper.py`,
`QUERY_FANOUT_PATTERNS` from `src/config/templates.py`) -/

/-- `QUERY_FANOUT_PATTERNS`: family name, templates, intent, priority tier.
The intent strings of the config table are carried as `IntentType` values
(the mapper converts them with `IntentType(intent_str)`). -/
def QUERY_FANOUT_PATTERNS : List (String × List String × IntentType × Nat) :=
  [("definitional",
    (["what is {entity}", "{entity} meaning", "{entity} definition", "{entity} explained"],
     .informational, 1)),
   ("how_to",
    (["how to {entity}", "{entity} tutorial", "{entity} guide", "learn {entity}"],
     .informational, 1)),
   ("comparison",
    (["{entity} vs", "{entity} alternatives", "{entity} comparison", "best {entity}"],
     .commercial, 2)),
   ("problems",
    (["{entity} problems", "{entity} issues", "{entity} not working", "{entity} errors"],
     .informational, 2)),
   ("benefits",
    (["{entity} benefits", "why use {entity}", "{entity} advantages", "{entity} pros cons"],
     .commercial, 2)),
   ("examples",
    (["{entity} examples", "{entity} use cases", "{entity} templates", "{entity} samples"],
     .informational, 2)),
   ("pricing",
    (["{entity} pricing", "{entity} cost", "{entity} free", "is {entity} free"],
     .transactional, 3)),
   ("reviews",
    (["{entity} review", "{entity} reviews", "is {entity} good", "{entity} worth it"],
     .commercial, 2)),
   ("integration",
    (["{entity} integration", "{entity} with", "{entity} api", "{entity} plugins"],
     .informational, 3)),
   ("advanced",
    (["advanced {entity}", "{entity} best practices", "{entity} tips", "{entity} optimization"],
     .informational, 3))]

/-- The priority tier lookup of `_generate_fanout_queries`
(`{1: CRITICAL, 2: HIGH, 3: MEDIUM}` with default `MEDIUM`). -/
def priorityOfTier (n : Nat) : ContentPriority :=
  if n = 1 then .critical else if n = 2 then .high else .medium

/-- The pattern-family part of `QueryMapper._predict_serp_features`. -/
def patternFeatures (patternName : String) : List String :=
  if patternName = "definitional" then ["featured_snippet", "knowledge_panel"]
  else if patternName = "how_to" then ["featured_snippet", "how_to_rich_result", "video_carousel"]
  else if patternName = "comparison" then ["featured_snippet", "table_snippet"]
  else if patternName = "problems" then ["paa", "featured_snippet"]
  else if patternName = "benefits" then ["featured_snippet", "paa"]
  else if patternName = "examples" then ["featured_snippet", "image_pack"]
  else if patternName = "pricing" then ["product_results", "shopping_ads"]
  else if patternName = "reviews" then ["review_snippet", "star_rating"]
  else if patternName = "integration" then ["paa", "featured_snippet"]
  else if patternName = "advanced" then ["featured_snippet", "paa"]
  else []

/-- `QueryMapper._predict_serp_features`: pattern lookup plus intent-based
additions, deduplicated preserving first-seen order. -/
def predictSerpFeatures (patternName : String) (intent : IntentType) : List String :=
  let features := patternFeatures patternName
  let features :=
    if intent = .commercial then
      if ¬ "shopping_ads" ∈ features then features ++ ["paa"] else features
    else if intent = .transactional then features ++ ["site_links"]
    else features
  pyDedup features

/-- `QueryMapper._generate_fanout_queries`: up to 3 templates per family,
entity name lower-cased into the template. -/
def generateFanoutQueries (e : Entity) : List Query :=
  let entityName := pyLower e.name
  QUERY_FANOUT_PATTERNS.flatMap (fun entry =>
    let pname := entry.1
    let pats := entry.2.1
    let intent := entry.2.2.1
    let prio := priorityOfTier entry.2.2.2
    (pats.take 3).map (fun pat =>
      { query_text := pyReplace pat "{entity}" entityName
        intent := intent
        entity_ids := [e.id]
        priority := prio
        serp_features := predictSerpFeatures pname intent
        fanout_pattern := some pname }))

/-- `QueryMapper._generate_alias_queries`: two medium-priority informational
queries per alias. -/
def generateAliasQueries (a : String) (entity_id : String) : List Query :=
  let aliasLower := pyLower a
  [{ query_text := "what is " ++ aliasLower, intent := .informational,
     entity_ids := [entity_id], priority := .medium,
     fanout_pattern := some "alias_definitional" },
   { query_text := "how to use " ++ aliasLower, intent := .informational,
     entity_ids := [entity_id], priority := .medium,
     fanout_pattern := some "alias_howto" }]

/-- `QueryMapper._create_query_cluster`: fan-out queries plus alias queries
for up to 5 aliases, all appended through `add_query`. -/
def createQueryCluster (e : Entity) : QueryCluster :=
  let qs := generateFanoutQueries e ++
    (e.aliases.take 5).flatMap (fun a => generateAliasQueries a e.id)
  qs.foldl addQuery
    { id := "qc_" ++ md5Stub e.id 8
      primary_entity_id := e.id
      primary_entity_name := e.name }

/-- `QueryMapper.map_all_entities`: clusters for all core entities, then for
supporting entities with centrality above 0.5, collected in the cluster dict
and returned as its values. -/
def mapAllEntities (ont : Ontology) : List QueryCluster :=
  let es := ont.entities.filter (fun e => e.type = .core) ++
    ont.entities.filter (fun e => e.type = .supporting ∧ e.semantic_centrality > 1/2)
  let d := es.foldl (fun d e =>
    dinsert d (createQueryCluster e).id (createQueryCluster e))
    ([] : List (String × QueryCluster))
  d.map (fun p => p.2)

/-! ## Taxonomy Builder (`src/core/taxonomy_builder.py`) -/

/-- `TaxonomyBuilder._generate_node_id`: `tax_` plus a 20-char slug plus a
6-hex-digit digest, all derived from the normalized name. -/
def generateNodeId (name : String) : String :=
  let normalized := pyStrip (pyLower name)
  let hashSuf := md5Stub normalized 6
  let slug : String := ⟨(subNonAlnum normalized.data false).take 20⟩
  "tax_" ++ slug ++ "_" ++ hashSuf

/-- `TaxonomyBuilder._generate_url_slug`: lower, drop characters outside
`[a-z0-9\s/]`, whitespace runs to a dash, collapse dashes, strip dashes,
wrap in slashes.  Runs are collapsed with the same state trick as the id
slug. -/
def urlSlugCollapseWs : List Char → Bool → List Char
  | [], _ => []
  | c :: rest, inRun =>
    if isPyWs c then
      if inRun then urlSlugCollapseWs rest true else '-' :: urlSlugCollapseWs rest true
    else c :: urlSlugCollapseWs rest false

/-- Collapse runs of dashes to a single dash. -/
def collapseDashes : List Char → Bool → List Char
  | [], _ => []
  | c :: rest, inRun =>
    if c = '-' then
      if inRun then collapseDashes rest true else '-' :: collapseDashes rest true
    else c :: collapseDashes rest false

/-- `TaxonomyBuilder._generate_url_slug`. -/
def generateUrlSlug (name : String) : String :=
  let lowered := (pyLower name).data
  let kept := lowered.filter (fun c => isLowerAlnum c || isPyWs c || c = '/')
  let dashed := urlSlugCollapseWs kept false
  let collapsed := collapseDashes dashed false
  let stripped := ((collapsed.dropWhile (fun c => c = '-')).reverse.dropWhile
    (fun c => c = '-')).reverse
  "/" ++ (⟨stripped⟩ : String) ++ "/"

/-- The node-dict type of the taxonomy builder (`self.nodes`). -/
abbrev NodeDict := List (String × TaxonomyNode)

/-- `TaxonomyBuilder._find_node_for_entity`: first node whose `entity_ids`
contains the entity. -/
def findNodeForEntity (d : NodeDict) (entity_id : String) : Option TaxonomyNode :=
  (d.map (fun p => p.2)).find? (fun n => entity_id ∈ n.entity_ids)

/-- Stable descending insertion by `semantic_centrality` (one step of the
Python stable `sort(key=..., reverse=True)`). -/
def insertByCentrality : List Entity → Entity → List Entity
  | [], e => [e]
  | x :: xs, e =>
    if e.semantic_centrality > x.semantic_centrality then e :: x :: xs
    else x :: insertByCentrality xs e

/-- The core entities sorted by centrality descending (stable, like the
Python `list.sort`). -/
def coreEntitiesSorted (ont : Ontology) : List Entity :=
  (ont.entities.filter (fun e => e.type = .core)).foldl insertByCentrality []

/-- The level-0 root node for the niche, with pre-set SEO strings. -/
def rootNodeOf (brand niche : String) : TaxonomyNode :=
  { id := generateNodeId niche
    name := niche
    parent_id := none
    level := 0
    seo_title := some (niche ++ " - Complete Guide | " ++ brand)
    seo_description := some ("Comprehensive resource for " ++ niche ++
      ". Expert guides, tutorials, and insights from " ++ brand ++ ".") }

/-- `TaxonomyBuilder._create_root_node`. -/
def createRootNode (brand niche : String) : NodeDict :=
  dinsert [] (generateNodeId niche) (rootNodeOf brand niche)

/-- The level-1 category node created for a core entity (child of the first
dict entry, which is the root). -/
def catNodeOf (rootRef : String) (e : Entity) : TaxonomyNode :=
  { id := generateNodeId e.name
    name := e.name
    parent_id := some rootRef
    entity_ids := [e.id]
    level := 1
    target_url := some (generateUrlSlug e.name) }

/-- `TaxonomyBuilder._create_category_nodes`: the top-15 core entities by
centrality become level-1 children of the first node in the dict. -/
def createCategoryNodes (ont : Ontology) (d : NodeDict) : NodeDict :=
  let rootId := ((d.head?.map (fun p => p.1)).getD "")
  ((coreEntitiesSorted ont).take 15).foldl (fun d e =>
    dinsert d (generateNodeId e.name) (catNodeOf rootId e)) d

/-- The level-2 subcategory node created for a related entity under a
category node. -/
def subcatNodeOf (catNode : TaxonomyNode) (re : Entity) : TaxonomyNode :=
  { id := generateNodeId re.name
    name := re.name
    parent_id := some catNode.id
    entity_ids := [re.id]
    level := 2
    target_url := some (generateUrlSlug (catNode.name ++ "/" ++ re.name)) }

/-- One candidate insertion of the subcategory pass: skip competitors and
entities already assigned to some node. -/
def subcatIns (catNode : TaxonomyNode) (d : NodeDict) (pr : Entity × Relationship) :
    NodeDict :=
  if pr.1.type = .competitor then d
  else if (findNodeForEntity d pr.1.id).isSome then d
  else dinsert d (generateNodeId pr.1.name) (subcatNodeOf catNode pr.1)

/-- The subcategory pass for one level-1 node: up to 5 related entities,
skipping competitors and entities already assigned to any node. -/
def subcatStep (ont : Ontology) (d : NodeDict) (catNode : TaxonomyNode) : NodeDict :=
  match catNode.entity_ids.head? with
  | none => d
  | some primaryId =>
    ((getRelatedEntities ont primaryId).take 5).foldl (subcatIns catNode) d

/-- `TaxonomyBuilder._create_subcategory_nodes`: iterate over a snapshot of
the level-1 nodes. -/
def createSubcategoryNodes (ont : Ontology) (d : NodeDict) : NodeDict :=
  let categoryNodes := (d.map (fun p => p.2)).filter (fun n => n.level = 1)
  categoryNodes.foldl (subcatStep ont) d

/-- The facet-definitions dict of `_generate_facets` (sets become
deduplicated lists). -/
def facetDefinitions (ont : Ontology) : List (String × List String) :=
  let base := [("intent", ["learn", "compare", "implement", "troubleshoot", "purchase"]),
               ("audience", ["beginners", "intermediate", "advanced", "decision-makers"]),
               ("content_type", ["guides", "tutorials", "comparisons", "reviews",
                                 "case-studies", "tools"])]
  let harvested := ont.entities.foldl (fun acc e =>
    match e.attributes.categories with
    | some cats => acc ++ cats
    | none => acc) ([] : List String)
  if harvested = [] then base else base ++ [("category", pyDedup harvested)]

/-- The per-node facet assignment of `_generate_facets` (fixed by level,
level 0 untouched). -/
def facetsUpdate (n : TaxonomyNode) : TaxonomyNode :=
  if n.level = 0 then n
  else if n.level = 1 then { n with facets := ["guides", "tutorials"] }
  else { n with facets := ["tutorials"] }

/-- The node part of `_generate_facets` over the whole dict. -/
def facetsPass (d : NodeDict) : NodeDict :=
  d.map (fun p => (p.1, facetsUpdate p.2))

/-- The link list of `_map_internal_links` for one node: parent, up to 3
siblings, all children, up to 3 relationship-derived node ids, deduplicated
preserving that order and truncated to 10. -/
def computeNodeLinks (ont : Ontology) (d : NodeDict) (n : TaxonomyNode) : List String :=
  let parentL := match n.parent_id with
    | some p => [p]
    | none => []
  let siblings := (((d.map (fun p => p.2)).filter
    (fun m => m.parent_id = n.parent_id ∧ m.id ≠ n.id)).map (fun m => m.id)).take 3
  let children := ((d.map (fun p => p.2)).filter
    (fun m => m.parent_id = some n.id)).map (fun m => m.id)
  let base := parentL ++ siblings ++ children
  let withRel := n.entity_ids.foldl (fun acc eid =>
    ((getRelatedEntities ont eid).take 3).foldl (fun acc pr =>
      match findNodeForEntity d pr.1.id with
      | some m => if m.id ∈ acc then acc else acc ++ [m.id]
      | none => acc) acc) base
  (pyDedup withRel).take 10

/-- The per-node update of `_map_internal_links`. -/
def linksUpdate (ont : Ontology) (d : NodeDict) (n : TaxonomyNode) : TaxonomyNode :=
  { n with internal_links_to := computeNodeLinks ont d n }

/-- `TaxonomyBuilder._map_internal_links` over the whole dict. -/
def linksPass (ont : Ontology) (d : NodeDict) : NodeDict :=
  d.map (fun p => (p.1, linksUpdate ont d p.2))

/-- Python truthiness of an optional string (`None` and `""` are falsy). -/
def strFalsy (s : Option String) : Bool :=
  match s with
  | none => true
  | some t => t = ""

/-- `TaxonomyBuilder._generate_seo_metadata` for one node. -/
def seoUpdate (brand niche : String) (d : NodeDict) (n : TaxonomyNode) : TaxonomyNode :=
  let n1 :=
    if strFalsy n.seo_title then
      if n.level = 1 then
        { n with seo_title := some (n.name ++ " Guide - Expert Resources | " ++ brand) }
      else
        let parentName := match dget d ((n.parent_id).getD "") with
          | some p => p.name
          | none => niche
        { n with seo_title := some (n.name ++ " - " ++ parentName ++ " | " ++ brand) }
    else n
  if strFalsy n1.seo_description then
    { n1 with seo_description := some ("Learn about " ++ pyLower n1.name ++
      " with our comprehensive guides. Expert tips, tutorials, and resources from " ++
      brand ++ ".") }
  else n1

/-- `TaxonomyBuilder._generate_seo_metadata` over the whole dict. -/
def seoPass (brand niche : String) (d : NodeDict) : NodeDict :=
  d.map (fun p => (p.1, seoUpdate brand niche d p.2))

/-- `TaxonomyBuilder.build`: root, categories, subcategories, facets,
internal links, SEO metadata. -/
def taxBuild (ont : Ontology) (niche : String) : Taxonomy :=
  let d1 := createRootNode ont.brand_name niche
  let d2 := createCategoryNodes ont d1
  let d3 := createSubcategoryNodes ont d2
  let d4 := facetsPass d3
  let d5 := linksPass ont d4
  let d6 := seoPass ont.brand_name niche d5
  { brand_name := ont.brand_name
    nodes := d6.map (fun p => p.2)
    facet_definitions := facetDefinitions ont }

/-! ## Hub Designer (`src/core/hub_designer.py`,
`DEFAULT_CONTENT_FORMATS` from `src/config/templates.py`) -/

/-- The `schema_types` entry of `DEFAULT_CONTENT_FORMATS` for a format, with
the `.get(format_type, {}).get("schema_types", ["Article"])` fallback. -/
def formatSchemaTypes (fmt : String) : List String :=
  if fmt = "long_form_guide" then ["Article", "HowTo"]
  else if fmt = "comparison_table" then ["Table", "ItemList"]
  else if fmt = "how_to_tutorial" then ["HowTo"]
  else if fmt = "faq_page" then ["FAQPage"]
  else if fmt = "product_review" then ["Review", "Product"]
  else if fmt = "listicle" then ["ItemList", "Article"]
  else if fmt = "video_content" then ["VideoObject"]
  else if fmt = "tool_calculator" then ["WebApplication", "SoftwareApplication"]
  else if fmt = "case_study" then ["Article", "Report"]
  else if fmt = "glossary_definition" then ["DefinedTerm", "Article"]
  else ["Article"]

/-- The query-cluster lookup dict of the designer
(`{qc.primary_entity_id: qc for qc in query_clusters}`). -/
def queryMapOf (qcs : List QueryCluster) : List (String × QueryCluster) :=
  qcs.foldl (fun d qc => dinsert d qc.primary_entity_id qc) []

/-- `HubDesigner._get_pattern_config`: title, format and intents per fan-out
pattern, with the generic fallback. -/
def getPatternConfig (pattern entityName : String) :
    String × String × List IntentType :=
  if pattern = "definitional" then
    ("What is " ++ entityName ++ "? Complete Overview", "glossary_definition", [.informational])
  else if pattern = "how_to" then
    ("How to Use " ++ entityName ++ ": Step-by-Step Guide", "how_to_tutorial", [.informational])
  else if pattern = "comparison" then
    (entityName ++ " Alternatives & Comparisons", "comparison_table", [.commercial])
  else if pattern = "problems" then
    ("Common " ++ entityName ++ " Problems & Solutions", "faq_page", [.informational])
  else if pattern = "benefits" then
    ("Benefits of " ++ entityName ++ ": Why Use It?", "listicle", [.commercial])
  else if pattern = "examples" then
    (entityName ++ " Examples & Use Cases", "case_study", [.informational])
  else if pattern = "pricing" then
    (entityName ++ " Pricing & Plans", "comparison_table", [.transactional, .commercial])
  else if pattern = "reviews" then
    (entityName ++ " Review: Pros, Cons & Verdict", "product_review", [.commercial])
  else if pattern = "integration" then
    (entityName ++ " Integrations & APIs", "how_to_tutorial", [.informational])
  else if pattern = "advanced" then
    ("Advanced " ++ entityName ++ " Tips & Best Practices", "long_form_guide", [.informational])
  else
    (entityName ++ ": " ++ pyTitle pattern, "long_form_guide", [.informational])

/-- `HubDesigner._create_pillar_page`: one critical pillar targeting up to 5
critical/high queries of the entity's cluster. -/
def createPillarPage (qmap : List (String × QueryCluster)) (e : Entity)
    (hubId : String) : HubPage :=
  let targetQueries :=
    match dget qmap e.id with
    | some qc =>
      ((qc.queries.filter (fun q =>
        q.priority = .critical ∨ q.priority = .high)).take 5).map (fun q => q.query_text)
    | none => []
  { id := hubId ++ "_pillar"
    title := "Complete Guide to " ++ e.name
    page_type := "pillar"
    target_queries := targetQueries
    target_intents := [.informational]
    entity_ids := [e.id]
    recommended_format := some "long_form_guide"
    recommended_word_count := some 3000
    schema_types := ["Article", "BreadcrumbList", "FAQPage"]
    priority := .critical
    status := "planned" }

/-- The pattern key of a query in the cluster-page grouping
(`query.fanout_pattern or "general"`). -/
def patternKey (q : Query) : String := (q.fanout_pattern).getD "general"

/-- `HubDesigner._create_cluster_pages`: group the cluster's queries by
fan-out pattern (insertion order of first occurrence), keep patterns with at
least 2 queries, cap at 10 pages. -/
def createClusterPages (e : Entity) (qc : QueryCluster) (hubId : String) :
    List HubPage :=
  let keys := pyDedup (qc.queries.map patternKey)
  let pages := keys.filterMap (fun pat =>
    let qs := qc.queries.filter (fun q => patternKey q = pat)
    if qs.length < 2 then none
    else
      let cfg3 := getPatternConfig pat e.name
      let hasCritical := qs.any (fun q => q.priority = .critical)
      let hasHigh := qs.any (fun q => q.priority = .high)
      some
        { id := hubId ++ "_cluster_" ++ pat
          title := cfg3.1
          page_type := "cluster"
          target_queries := (qs.take 5).map (fun q => q.query_text)
          target_intents := cfg3.2.2
          entity_ids := [e.id]
          recommended_format := some cfg3.2.1
          recommended_word_count := some 1500
          schema_types := formatSchemaTypes cfg3.2.1
          priority := if hasCritical then .critical else if hasHigh then .high else .medium
          status := "planned" })
  pages.take 10

/-- `HubDesigner._create_supporting_pages`: up to 5 non-competitor related
entities, title phrased by relationship type. -/
def createSupportingPages (ont : Ontology) (e : Entity) (hubId : String) :
    List HubPage :=
  ((getRelatedEntities ont e.id).take 5).filterMap (fun pr =>
    let re := pr.1
    let rel := pr.2
    if re.type = .competitor then none
    else
      let title :=
        match rel.relationship_type with
        | .isA => re.name ++ ": A Type of " ++ e.name
        | .partOf => re.name ++ " in " ++ e.name
        | .usedFor => "Using " ++ e.name ++ " for " ++ re.name
        | _ => re.name ++ " & " ++ e.name
      some
        { id := hubId ++ "_support_" ++ md5Stub re.id 6
          title := title
          page_type := "supporting"
          target_queries := []
          target_intents := [.informational]
          entity_ids := [e.id, re.id]
          recommended_format := some "long_form_guide"
          recommended_word_count := some 800
          schema_types := ["Article"]
          priority := .low
          status := "planned" })

/-- `HubDesigner._design_hub`: pillar, cluster and supporting pages, then the
intra-hub link pass of `_map_internal_links` (pillar to every cluster,
cluster to pillar plus up to 2 sibling clusters, supporting to pillar) and
`calculate_link_count`. -/
def designHub (ont : Ontology) (qmap : List (String × QueryCluster)) (e : Entity)
    (_taxonomyNodeId : String) : ContentHub :=
  let hubId := "hub_" ++ md5Stub e.id 8
  let pillar0 := createPillarPage qmap e hubId
  let clusters0 :=
    match dget qmap e.id with
    | some qc => createClusterPages e qc hubId
    | none => []
  let supporting0 := createSupportingPages ont e hubId
  let pillar := { pillar0 with
    internal_links_to := clusters0.map (fun p => p.id)
    internal_links_from := [] }
  let clusters := clusters0.map (fun p =>
    let others := ((clusters0.filter (fun q => q.id ≠ p.id)).map (fun q => q.id)).take 2
    { p with
      internal_links_to := [pillar0.id] ++ others
      internal_links_from := [pillar0.id] })
  let supporting := supporting0.map (fun p =>
    { p with internal_links_to := [pillar0.id], internal_links_from := [] })
  let hub : ContentHub :=
    { id := hubId
      name := e.name
      primary_entity_id := e.id
      pillar_page := some pillar
      cluster_pages := clusters
      supporting_pages := supporting }
  { hub with internal_link_count := linkCountOf hub }

/-- The inter-hub linking pass `_map_hub_links` for one hub: for each related
entity, find the first hub whose primary entity it is and append that hub's
pillar id to this hub's pillar links if absent. -/
def mapHubLinksOne (ont : Ontology) (hubs : List ContentHub) (h : ContentHub) :
    ContentHub :=
  match getEntity ont h.primary_entity_id with
  | none => h
  | some e =>
    match h.pillar_page with
    | none => h
    | some p =>
      let newLinks := (getRelatedEntities ont e.id).foldl (fun links pr =>
        match hubs.find? (fun oh => oh.primary_entity_id = pr.1.id) with
        | none => links
        | some oh =>
          match oh.pillar_page with
          | none => links
          | some op => if op.id ∈ links then links else links ++ [op.id]) p.internal_links_to
      { h with pillar_page := some { p with internal_links_to := newLinks } }

/-- The query-coverage sub-score of `_calculate_coverage` (only present when
a query cluster matched).  The covered-query count is the integer sum the
Python code forms before dividing. -/
def queryCoverageSub (qc : QueryCluster) (h : ContentHub) : ℚ :=
  let covered : Nat := ((allPages h).map (fun p => p.target_queries.length)).sum
  min 1 ((covered : ℚ) / ((max qc.queries.length 1 : Nat) : ℚ))

/-- The intent-coverage sub-score of `_calculate_coverage`: distinct covered
intents (a Python set, modelled by deduplication) over the 5 defined
intents. -/
def intentCoverageSub (h : ContentHub) : ℚ :=
  ((pyDedup ((allPages h).flatMap (fun p => p.target_intents))).length : ℚ) / 5

/-- The link-density sub-score of `_calculate_coverage`: the stored
`internal_link_count` over 3 links per page. -/
def linkDensitySub (h : ContentHub) : ℚ :=
  min 1 ((h.internal_link_count : ℚ) / ((max ((allPages h).length * 3) 1 : Nat) : ℚ))

/-- `HubDesigner._calculate_coverage`: the unweighted mean of the applicable
sub-scores (the query sub-score only when the entity has a query cluster). -/
def calculateCoverage (qmap : List (String × QueryCluster)) (h : ContentHub) : ℚ :=
  match dget qmap h.primary_entity_id with
  | some qc => (queryCoverageSub qc h + intentCoverageSub h + linkDensitySub h) / 3
  | none => (intentCoverageSub h + linkDensitySub h) / 2

/-- The hub list of `design_all_hubs` before inter-hub linking: one hub per
level-1 taxonomy node with a resolvable primary entity. -/
def baseHubs (ont : Ontology) (tax : Taxonomy) (qcs : List QueryCluster) :
    List ContentHub :=
  tax.nodes.filterMap (fun node =>
    if node.level = 1 then
      match node.entity_ids.head? with
      | some eid =>
        match getEntity ont eid with
        | some e => some (designHub ont (queryMapOf qcs) e node.id)
        | none => none
      | none => none
    else none)

/-- The final coverage assignment of `design_all_hubs` for one hub. -/
def covFinal (qmap : List (String × QueryCluster)) (h : ContentHub) : ContentHub :=
  { h with coverage_score := calculateCoverage qmap h }

/-- `HubDesigner.design_all_hubs`: the base hubs, then the inter-hub link
pass, then the coverage scores. -/
def designAllHubs (ont : Ontology) (tax : Taxonomy) (qcs : List QueryCluster) :
    List ContentHub :=
  ((baseHubs ont tax qcs).map (mapHubLinksOne ont (baseHubs ont tax qcs))).map
    (covFinal (queryMapOf qcs))

/-! ## Definitions used only by theorem statements -/

/-- The relationship emitted by the containment branch when `e1`'s lowered
name is strictly contained in `e2`'s. -/
def containEdge (e1 e2 : Entity) : Relationship :=
  { source_id := e2.id, target_id := e1.id, relationship_type := .isA,
    weight := 7/10,
    context := some ("'" ++ e2.name ++ "' contains '" ++ e1.name ++ "'") }

/-- The incremental-statistics invariant of a query cluster. -/
def clusterInv (c : QueryCluster) : Prop :=
  ((c.intent_distribution.map (fun p => p.2)).sum = c.queries.length) ∧
  ∀ i : IntentType, lookIntent c.intent_distribution i =
    (c.queries.filter (fun q => q.intent = i)).length

/-- The number of taxonomy-dict nodes whose `entity_ids` contain a given
entity id. -/
def entityNodeCount (x : String) (d : NodeDict) : Nat :=
  ((d.map (fun p => p.2)).filter (fun n => x ∈ n.entity_ids)).length

/-- The number of taxonomy-dict nodes satisfying a predicate. -/
def nodeCountP (p : TaxonomyNode → Bool) (d : NodeDict) : Nat :=
  ((d.map (fun q => q.2)).filter p).length

/-- The construction invariant of the taxonomy node dict, maintained while
root, category and subcategory nodes are inserted: keys are distinct, every
node stores its own key as id, the first entry is the root of the niche with
no parent, only the root has no parent, every non-root entry is the node of
some ontology entity holding exactly that entity's id, and every parent
pointer resolves to an entry of strictly smaller level. -/
def taxInv (ont : Ontology) (niche : String) (d : NodeDict) : Prop :=
  ((d.map (fun p => p.1)).Nodup) ∧
  (∀ kn ∈ d, (kn : String × TaxonomyNode).2.id = kn.1) ∧
  (∃ r : TaxonomyNode, d.head? = some (generateNodeId niche, r) ∧
    r.parent_id = none ∧ r.level = 0) ∧
  (∀ kn ∈ d, (kn : String × TaxonomyNode).2.parent_id = none →
    kn.1 = generateNodeId niche) ∧
  (∀ kn ∈ d, (kn : String × TaxonomyNode).1 ≠ generateNodeId niche →
    ∃ e ∈ ont.entities, kn.1 = generateNodeId e.name ∧ kn.2.entity_ids = [e.id]) ∧
  (∀ kn ∈ d, ∀ pid, (kn : String × TaxonomyNode).2.parent_id = some pid →
    ∃ km ∈ d, (km : String × TaxonomyNode).1 = pid ∧ km.2.level < kn.2.level)

/-! ## The parenthood step relation on a taxonomy, for the tree claims -/

/-- One parenthood step in a taxonomy: some node carries id `a` and points to
parent id `b`.  "`b` is an ancestor of `a`" is the transitive closure. -/
def parentStep (t : Taxonomy) (a b : String) : Prop :=
  ∃ n ∈ t.nodes, n.id = a ∧ n.parent_id = some b

/-! ## Concrete pipeline inputs used by the witnesses and counterexamples -/

/-- A small seed configuration (brand, niche, two seed entities). -/
def exCfg : BrandConfig :=
  { brand_name := "Acme"
    primary_niche := "Project Management Software"
    business_goals := ["brand_awareness"]
    seed_entities := ["tools", "task tools"] }

/-- The ontology built from `exCfg` (no sitemap). -/
def exOnt : Ontology := ontBuild exCfg []

/-- The taxonomy built from `exOnt`. -/
def exTax : Taxonomy := taxBuild exOnt "Project Management Software"

/-- A single-seed configuration whose built ontology shows the brand-score
overwrite. -/
def soloCfg : BrandConfig :=
  { brand_name := "Acme"
    primary_niche := "PM"
    business_goals := ["brand_awareness"]
    seed_entities := ["task tracking"] }

/-- An entity carrying a pre-existing alias that the expander cannot
re-derive from its name. -/
def crmEntity : Entity := { id := "x1", name := "crm", type := .core, aliases := ["zz"] }

/-- An ontology holding only `crmEntity`. -/
def crmOntology : Ontology := { brand_name := "B", entities := [crmEntity] }

/-- An ontology with one core entity whose name equals the niche string used
alongside it, collapsing the root and category node ids. -/
def toolsOntology : Ontology :=
  { brand_name := "Acme", entities := [{ id := "e1", name := "tools", type := .core }] }

/-- A lone core entity with no relationships, for the hub claims. -/
def hubEntity : Entity := { id := "e1", name := "crm", type := .core }

/-- The ontology holding only `hubEntity` (zero related entities). -/
def hubOntology : Ontology := { brand_name := "B", entities := [hubEntity] }

/-- A taxonomy with a single level-1 node anchored to `hubEntity`. -/
def hubTaxonomy : Taxonomy :=
  { brand_name := "B"
    nodes := [{ id := "n1", name := "crm", parent_id := some "r",
                entity_ids := ["e1"], level := 1 }] }

/-- A low-priority informational query with no fan-out pattern. -/
def lowQuery : Query := { query_text := "q", intent := .informational, priority := .low }

/-- A query cluster for `hubEntity` with four low-priority queries, all
appended through `add_query`. -/
def hubCluster : QueryCluster :=
  [lowQuery, lowQuery, lowQuery, lowQuery].foldl addQuery
    { id := "qc1", primary_entity_id := "e1", primary_entity_name := "crm" }

/-- The single hub designed from `hubOntology` and `hubTaxonomy` when no
query clusters are supplied. -/
def soloHub : ContentHub :=
  (designAllHubs hubOntology hubTaxonomy []).get ⟨0, by decide⟩

/-- The single hub designed from `hubOntology` and `hubTaxonomy` when the
`hubCluster` query cluster is supplied. -/
def c10Hub : ContentHub :=
  (designAllHubs hubOntology hubTaxonomy [hubCluster]).get ⟨0, by decide⟩

/-! ## Generic lemmas about the Python-modelling helpers -/

theorem mem_pyDedupAux {α : Type} [DecidableEq α] (l : List α) :
    ∀ (seen : List α) (a : α), a ∈ pyDedupAux l seen ↔ a ∈ l ∧ a ∉ seen := by
  induction l with
  | nil => intro seen a; simp [pyDedupAux]
  | cons x xs ih =>
    intro seen a
    by_cases hx : x ∈ seen
    · rw [show pyDedupAux (x :: xs) seen = pyDedupAux xs seen by simp [pyDedupAux, hx]]
      rw [ih]
      constructor
      · rintro ⟨h1, h2⟩; exact ⟨List.mem_cons_of_mem _ h1, h2⟩
      · rintro ⟨h1, h2⟩
        rcases List.mem_cons.mp h1 with h1 | h1
        · exact absurd (h1 ▸ hx) h2
        · exact ⟨h1, h2⟩
    · rw [show pyDedupAux (x :: xs) seen = x :: pyDedupAux xs (x :: seen) by
        simp [pyDedupAux, hx]]
      constructor
      · intro h
        rcases List.mem_cons.mp h with h | h
        · exact ⟨h ▸ List.mem_cons_self x xs, h ▸ hx⟩
        · obtain ⟨h1, h2⟩ := (ih _ a).mp h
          exact ⟨List.mem_cons_of_mem _ h1, fun hc => h2 (List.mem_cons_of_mem _ hc)⟩
      · rintro ⟨h1, h2⟩
        rcases List.mem_cons.mp h1 with h1 | h1
        · exact h1 ▸ List.mem_cons_self _ _
        · by_cases hax : a = x
          · exact hax ▸ List.mem_cons_self _ _
          · exact List.mem_cons_of_mem _ ((ih _ a).mpr
              ⟨h1, fun hc => (List.mem_cons.mp hc).elim hax h2⟩)

theorem mem_pyDedup {α : Type} [DecidableEq α] (l : List α) (a : α) :
    a ∈ pyDedup l ↔ a ∈ l := by
  rw [pyDedup, mem_pyDedupAux]; simp

theorem toFinset_pyDedup (l : List String) : (pyDedup l).toFinset = l.toFinset := by
  ext x; simp [mem_pyDedup]

theorem dget_dinsert_self {α : Type} (d : List (String × α)) (k : String) (v : α) :
    dget (dinsert d k v) k = some v := by
  induction d with
  | nil => simp [dinsert, dget, List.find?]
  | cons p rest ih =>
    obtain ⟨k', v'⟩ := p
    by_cases hk : k' = k
    · simp [dinsert, hk, dget, List.find?]
    · simp only [dinsert, if_neg hk]
      simpa [dget, List.find?, hk] using ih

theorem mem_values_dinsert {α : Type} (d : List (String × α)) (k : String) (v w : α)
    (h : w ∈ (dinsert d k v).map (fun p => p.2)) :
    w ∈ d.map (fun p => p.2) ∨ w = v := by
  induction d with
  | nil => simp [dinsert] at h; simp [h]
  | cons p rest ih =>
    obtain ⟨k', v'⟩ := p
    by_cases hk : k' = k
    · simp only [dinsert, if_pos hk, List.map_cons, List.mem_cons] at h
      rcases h with h | h
      · exact Or.inr h
      · exact Or.inl (List.mem_cons_of_mem _ h)
    · simp only [dinsert, if_neg hk, List.map_cons, List.mem_cons] at h
      rcases h with h | h
      · exact Or.inl (h ▸ List.mem_cons_self _ _)
      · rcases ih h with h | h
        · exact Or.inl (List.mem_cons_of_mem _ h)
        · exact Or.inr h

theorem mem_values_foldl_dinsert {α β : Type} (f : β → String) (g : β → α)
    (l : List β) :
    ∀ (d0 : List (String × α)) (w : α),
      w ∈ (l.foldl (fun d x => dinsert d (f x) (g x)) d0).map (fun p => p.2) →
      w ∈ d0.map (fun p => p.2) ∨ ∃ x ∈ l, w = g x := by
  induction l with
  | nil => intro d0 w h; exact Or.inl h
  | cons x xs ih =>
    intro d0 w h
    rcases ih (dinsert d0 (f x) (g x)) w h with h1 | h1
    · rcases mem_values_dinsert d0 (f x) (g x) w h1 with h2 | h2
      · exact Or.inl h2
      · exact Or.inr ⟨x, List.mem_cons_self _ _, h2⟩
    · obtain ⟨y, hy, hw⟩ := h1
      exact Or.inr ⟨y, List.mem_cons_of_mem _ hy, hw⟩

theorem startsSeq_iff (p : List Char) : ∀ s : List Char, startsSeq p s = true ↔ p <+: s := by
  induction p with
  | nil => intro s; simp [startsSeq]
  | cons a as ih =>
    intro s
    cases s with
    | nil => simp [startsSeq]
    | cons b bs =>
      simp only [startsSeq, Bool.and_eq_true, decide_eq_true_eq, ih,
        List.cons_prefix_cons]

theorem containsSeq_iff (p : List Char) : ∀ s : List Char, containsSeq p s = true ↔ p <:+: s := by
  intro s
  induction s with
  | nil =>
    simp only [containsSeq, startsSeq_iff, List.prefix_nil, List.infix_nil]
  | cons c rest ih =>
    simp only [containsSeq, Bool.or_eq_true, startsSeq_iff, ih,
      List.infix_cons_iff]

theorem containsSeq_length_le (p s : List Char) (h : containsSeq p s = true) :
    p.length ≤ s.length :=
  ((containsSeq_iff p s).mp h).length_le

theorem containsSeq_antisymm (p s : List Char) (h : containsSeq p s = true)
    (hne : p ≠ s) : containsSeq s p = false := by
  by_contra hc
  have h2 : containsSeq s p = true := by
    cases hcv : containsSeq s p with
    | false => exact absurd hcv hc
    | true => rfl
  have hps := (containsSeq_iff p s).mp h
  have hsp := (containsSeq_iff s p).mp h2
  have hlen : p.length = s.length :=
    Nat.le_antisymm hps.length_le hsp.length_le
  exact hne (hps.sublist.eq_of_length hlen)

/-! ## C1 — Entity Expander alias assignment -/

/-- C1 (counterexample): the claim says `expand_all_entities` replaces the
aliases with exactly the derived candidate variants, so no alias that is not
re-derivable from the name survives.  On an entity named "crm" with a
pre-existing alias "zz", the alias "zz" survives expansion even though it is
not among the derived candidates: the expander starts from the existing
alias set and unions, it does not replace. -/
theorem c1_prior_alias_survives_counterexample :
    ∃ e ∈ (expandAllEntities crmOntology).entities,
      e.name = "crm" ∧ "zz" ∈ e.aliases ∧
      ¬ "zz" ∈ (deriveVariants "crm").filter (keepAlias (pyLower "crm")) := by
  decide

/-- C1 (amended): `expand_all_entities` rewrites every entity's aliases to
the union of the pre-existing aliases and the derived candidate variants,
filtered (length ≥ 2, lower-cased, not the entity's own lower-cased name)
and deduplicated; pre-existing aliases passing the filter survive.  The
operation leaves names unchanged and is idempotent as a set. -/
theorem c1_alias_expansion_union_and_idempotent :
    (∀ ont : Ontology, (expandAllEntities ont).entities = ont.entities.map expandEntity) ∧
    (∀ e : Entity,
      (expandEntity e).name = e.name ∧
      (expandEntity e).aliases.toFinset =
        ((e.aliases ++ deriveVariants e.name).filter (keepAlias (pyLower e.name))).toFinset ∧
      (expandEntity (expandEntity e)).aliases.toFinset = (expandEntity e).aliases.toFinset) := by
  refine ⟨fun ont => rfl, fun e => ⟨rfl, ?_, ?_⟩⟩
  · exact toFinset_pyDedup _
  · have hname : (expandEntity e).name = e.name := rfl
    ext x
    simp only [expandEntity, hname, List.mem_toFinset, mem_pyDedup, List.mem_filter,
      List.mem_append]
    constructor
    · rintro ⟨hmem | hmem, hkeep⟩
      · exact hmem
      · exact ⟨Or.inr hmem, hkeep⟩
    · rintro ⟨hmem, hkeep⟩
      exact ⟨Or.inl ⟨hmem, hkeep⟩, hkeep⟩

/-! ## Lemmas about the ontology builder -/

theorem mem_dinsert_self {α : Type} (d : List (String × α)) (k : String) (v : α) :
    (k, v) ∈ dinsert d k v := by
  induction d with
  | nil => simp [dinsert]
  | cons p rest ih =>
    obtain ⟨k', v'⟩ := p
    by_cases hk : k' = k
    · simp [dinsert, hk]
    · simp only [dinsert, if_neg hk]
      exact List.mem_cons_of_mem _ ih

theorem scoreEntity_id (rels : List Relationship) (e : Entity) :
    (scoreEntity rels e).id = e.id := rfl

theorem scoreEntity_name (rels : List Relationship) (e : Entity) :
    (scoreEntity rels e).name = e.name := rfl

theorem ontBuild_entities (cfg : BrandConfig) (items : List SitemapItem) :
    (ontBuild cfg items).entities =
      (ontDict cfg items).map (fun p => scoreEntity (ontRels cfg items) p.2) := rfl

theorem ontBuild_relationships (cfg : BrandConfig) (items : List SitemapItem) :
    (ontBuild cfg items).relationships = ontRels cfg items := rfl

theorem brand_pair_mem_ontDict (cfg : BrandConfig) (items : List SitemapItem) :
    (generateEntityId cfg.brand_name, brandEntity cfg) ∈ ontDict cfg items :=
  mem_dinsert_self _ _ _

theorem scored_brand_mem_build (cfg : BrandConfig) (items : List SitemapItem) :
    scoreEntity (ontRels cfg items) (brandEntity cfg) ∈ (ontBuild cfg items).entities := by
  rw [ontBuild_entities]
  exact List.mem_map_of_mem (fun p => scoreEntity (ontRels cfg items) p.2)
    (brand_pair_mem_ontDict cfg items)

/-! ## C2 — brand entity scores in the built ontology -/

/-- C2 (counterexample): the claim says the brand entity of the built
ontology has `semantic_centrality = 1.0` and `commercial_value = 1.0`.  On a
seed configuration with brand "Acme" and one seed, every entity carrying the
brand's id in the returned ontology has `commercial_value ≠ 1`: the scoring
pass overwrote the initial 1.0 with the core-type lookup value 0.8. -/
theorem c2_brand_score_counterexample :
    ∃ e ∈ (ontBuild soloCfg []).entities,
      e.id = generateEntityId soloCfg.brand_name ∧
      ¬ (e.commercial_value = 1 ∧ e.semantic_centrality = 1) := by
  refine ⟨scoreEntity (ontRels soloCfg []) (brandEntity soloCfg),
    scored_brand_mem_build soloCfg [], rfl, ?_⟩
  rintro ⟨h1, -⟩
  have h2 : (8/10 : ℚ) = 1 := h1
  norm_num at h2

/-- C2 (amended): the brand entity is created with both scores equal to 1,
but `_calculate_entity_scores` runs afterwards over every entity, so in the
ontology returned by `build` the brand entity has `commercial_value = 0.8`
(the fixed core-type lookup) and `semantic_centrality =
min(1, degree/max_degree + 0.2)` like every other entity. -/
theorem c2_brand_scores_overwritten (cfg : BrandConfig) (items : List SitemapItem) :
    (brandEntity cfg).commercial_value = 1 ∧ (brandEntity cfg).semantic_centrality = 1 ∧
    ∃ e ∈ (ontBuild cfg items).entities,
      e.id = generateEntityId cfg.brand_name ∧ e.type = .core ∧
      e.commercial_value = 8/10 ∧
      e.semantic_centrality = min 1
        ((relCount (ontBuild cfg items).relationships e.id : ℚ) /
          (maxRelCount (ontBuild cfg items).relationships : ℚ) + 1/5) := by
  refine ⟨rfl, rfl, scoreEntity (ontRels cfg items) (brandEntity cfg),
    scored_brand_mem_build cfg items, rfl, rfl, rfl, rfl⟩

/-! ## C8 — deterministic identity -/

/-- C8: entity-id generation is a function of the normalized
(lower-cased, stripped) name — equal normalizations give equal ids — and
building the ontology twice from identical configurations with no sitemap
yields the same entity-id list and the same relationship multiset. -/
theorem c8_deterministic_identity :
    (∀ n1 n2 : String, pyStrip (pyLower n1) = pyStrip (pyLower n2) →
      generateEntityId n1 = generateEntityId n2) ∧
    (∀ c1 c2 : BrandConfig, c1 = c2 →
      (ontBuild c1 []).entities.map (fun e => e.id) =
        (ontBuild c2 []).entities.map (fun e => e.id) ∧
      Multiset.ofList (ontBuild c1 []).relationships =
        Multiset.ofList (ontBuild c2 []).relationships) := by
  constructor
  · intro n1 n2 h
    simp only [generateEntityId, h]
  · rintro c1 c2 rfl
    exact ⟨rfl, rfl⟩

/-- C8 (witness): two spellings with the same normalization get the same id,
and rebuilding from the same configuration reproduces the id list. -/
theorem c8_deterministic_identity_witness :
    pyStrip (pyLower " Acme ") = pyStrip (pyLower "acme") ∧
    generateEntityId " Acme " = generateEntityId "acme" ∧
    (ontBuild exCfg []).entities.map (fun e => e.id) =
      (ontBuild exCfg []).entities.map (fun e => e.id) :=
  ⟨by decide, c8_deterministic_identity.1 " Acme " "acme" (by decide),
    (c8_deterministic_identity.2 exCfg exCfg rfl).1⟩

/-! ## C4 — containment produces is_a edges -/

theorem mem_pairRels (a b : Entity) (r : Relationship) :
    ∀ l : List Entity, a ∈ l → b ∈ l → a ≠ b →
      detectRelationship a b = some r → detectRelationship b a = some r →
      r ∈ pairRels l := by
  intro l
  induction l with
  | nil => intro ha; cases ha
  | cons x xs ih =>
    intro ha hb hne hab hba
    simp only [pairRels, List.mem_append]
    rcases List.mem_cons.mp ha with rfl | ha'
    · rcases List.mem_cons.mp hb with rfl | hb'
      · exact absurd rfl hne
      · exact Or.inl (List.mem_filterMap.mpr ⟨b, hb', hab⟩)
    · rcases List.mem_cons.mp hb with rfl | hb'
      · exact Or.inl (List.mem_filterMap.mpr ⟨a, ha', hba⟩)
      · exact Or.inr (ih ha' hb' hne hab hba)

theorem string_ne_data {s t : String} (h : s ≠ t) : s.data ≠ t.data := by
  intro hd
  apply h
  cases s; cases t
  exact congrArg String.mk hd

theorem detect_of_contain (e1 e2 : Entity)
    (hsub : containsSeq (pyLower e1.name).data (pyLower e2.name).data = true)
    (hne : pyLower e1.name ≠ pyLower e2.name) :
    detectRelationship e1 e2 = some (containEdge e1 e2) ∧
    detectRelationship e2 e1 = some (containEdge e1 e2) := by
  have hnotrev : containsSeq (pyLower e2.name).data (pyLower e1.name).data = false :=
    containsSeq_antisymm _ _ hsub (string_ne_data hne)
  constructor
  · rw [detectRelationship]
    rw [if_pos]
    · rfl
    · simp [pyInStr, hsub, hne]
  · rw [detectRelationship]
    rw [if_neg, if_pos]
    · rfl
    · simp [pyInStr, hsub, Ne.symm hne]
    · simp [pyInStr, hnotrev]

/-- C4: in any built ontology, whenever one entity's lower-cased name is
strictly contained in another's, the relationship list carries an `is_a`
edge of weight 0.7 from the containing (longer) name's entity to the
contained (shorter) name's entity. -/
theorem c4_containment_isa_edge (cfg : BrandConfig) (items : List SitemapItem)
    (e1 e2 : Entity)
    (h1 : e1 ∈ (ontBuild cfg items).entities)
    (h2 : e2 ∈ (ontBuild cfg items).entities)
    (hne : pyLower e1.name ≠ pyLower e2.name)
    (hsub : containsSeq (pyLower e1.name).data (pyLower e2.name).data = true) :
    ∃ r ∈ (ontBuild cfg items).relationships,
      r.source_id = e2.id ∧ r.target_id = e1.id ∧
      r.relationship_type = .isA ∧ r.weight = 7/10 := by
  rw [ontBuild_entities] at h1 h2
  obtain ⟨p1, hp1, he1⟩ := List.mem_map.mp h1
  obtain ⟨p2, hp2, he2⟩ := List.mem_map.mp h2
  have ha : p1.2 ∈ (ontDict cfg items).map (fun p => p.2) := List.mem_map_of_mem _ hp1
  have hb : p2.2 ∈ (ontDict cfg items).map (fun p => p.2) := List.mem_map_of_mem _ hp2
  have hname1 : pyLower p1.2.name = pyLower e1.name := by rw [← he1]; rfl
  have hname2 : pyLower p2.2.name = pyLower e2.name := by rw [← he2]; rfl
  have hne' : pyLower p1.2.name ≠ pyLower p2.2.name := by
    rw [hname1, hname2]; exact hne
  have hsub' : containsSeq (pyLower p1.2.name).data (pyLower p2.2.name).data = true := by
    rw [hname1, hname2]; exact hsub
  have hneq : p1.2 ≠ p2.2 := fun hc => hne' (hc ▸ rfl)
  obtain ⟨hab, hba⟩ := detect_of_contain p1.2 p2.2 hsub' hne'
  have hr : containEdge p1.2 p2.2 ∈ pairRels ((ontDict cfg items).map (fun p => p.2)) :=
    mem_pairRels p1.2 p2.2 _ _ ha hb hneq hab hba
  refine ⟨containEdge p1.2 p2.2, ?_, ?_, ?_, rfl, rfl⟩
  · rw [ontBuild_relationships, ontRels, inferRelationships]
    exact List.mem_append_right _ hr
  · rw [← he2]; rfl
  · rw [← he1]; rfl

/-- C4 (witness): in the ontology built from seeds "tools" and "task tools",
the entities named "tools" and "task tools" are related by an `is_a` edge
from "task tools" (the containing name) toward "tools". -/
theorem c4_containment_isa_edge_witness :
    ∃ r ∈ (ontBuild exCfg []).relationships,
      r.source_id = ((ontBuild exCfg []).entities.get ⟨1, by decide⟩).id ∧
      r.target_id = ((ontBuild exCfg []).entities.get ⟨0, by decide⟩).id ∧
      r.relationship_type = .isA ∧ r.weight = 7/10 :=
  c4_containment_isa_edge exCfg [] _ _
    (List.get_mem _ 0 _) (List.get_mem _ 1 _) (by decide) (by decide)

/-! ## C5 — query-cluster statistics consistency -/

theorem lookIntent_nil (i : IntentType) : lookIntent [] i = 0 := rfl

theorem lookIntent_cons (k : IntentType) (n : Nat) (rest : List (IntentType × Nat))
    (i : IntentType) :
    lookIntent ((k, n) :: rest) i = if k = i then n else lookIntent rest i := by
  by_cases h : k = i <;> simp [lookIntent, List.find?, h]

theorem bumpIntent_look (k i : IntentType) :
    ∀ d : List (IntentType × Nat),
      lookIntent (bumpIntent d k) i = lookIntent d i + (if i = k then 1 else 0) := by
  intro d
  induction d with
  | nil =>
    simp only [bumpIntent, lookIntent_cons, lookIntent_nil]
    by_cases h : k = i
    · subst h; simp
    · rw [if_neg h, if_neg (fun hc : i = k => h hc.symm)]
  | cons p rest ih =>
    obtain ⟨k', n⟩ := p
    simp only [bumpIntent]
    by_cases hk : k' = k
    · subst hk
      rw [if_pos rfl, lookIntent_cons, lookIntent_cons]
      by_cases hi : k' = i
      · subst hi; simp
      · rw [if_neg hi, if_neg hi, if_neg (fun hc : i = k' => hi hc.symm)]
        omega
    · rw [if_neg hk, lookIntent_cons, lookIntent_cons]
      by_cases hi : k' = i
      · subst hi
        rw [if_pos rfl, if_pos rfl, if_neg (fun hc : k' = k => hk hc)]
        omega
      · rw [if_neg hi, if_neg hi, ih]

theorem bumpIntent_sum (k : IntentType) :
    ∀ d : List (IntentType × Nat),
      ((bumpIntent d k).map (fun p => p.2)).sum = (d.map (fun p => p.2)).sum + 1 := by
  intro d
  induction d with
  | nil => simp [bumpIntent]
  | cons p rest ih =>
    obtain ⟨k', n⟩ := p
    by_cases hk : k' = k
    · simp [bumpIntent, hk]
      omega
    · simp [bumpIntent, hk, ih]
      omega

theorem addQuery_clusterInv (c : QueryCluster) (q : Query) (h : clusterInv c) :
    clusterInv (addQuery c q) := by
  obtain ⟨hsum, hlook⟩ := h
  constructor
  · simp only [addQuery, bumpIntent_sum, hsum, List.length_append, List.length_cons,
      List.length_nil]
  · intro i
    simp only [addQuery, bumpIntent_look, hlook i, List.filter_append]
    by_cases hi : q.intent = i
    · simp [hi, List.length_append]
    · have hi2 : ¬ i = q.intent := fun hc => hi hc.symm
      simp [hi, hi2]

theorem foldl_addQuery_clusterInv (qs : List Query) :
    ∀ c : QueryCluster, clusterInv c → clusterInv (qs.foldl addQuery c) := by
  induction qs with
  | nil => intro c h; exact h
  | cons q rest ih => intro c h; exact ih _ (addQuery_clusterInv c q h)

theorem createQueryCluster_clusterInv (e : Entity) : clusterInv (createQueryCluster e) := by
  apply foldl_addQuery_clusterInv
  exact ⟨rfl, fun i => rfl⟩

/-- C5: every cluster produced by `map_all_entities` (whose queries are all
appended through `add_query`) has consistent incremental statistics: the
intent-distribution counts sum to the number of queries, and each intent's
count is the number of queries carrying that intent. -/
theorem c5_cluster_statistics (ont : Ontology) (c : QueryCluster)
    (hc : c ∈ mapAllEntities ont) :
    ((c.intent_distribution.map (fun p => p.2)).sum = c.queries.length) ∧
    ∀ i : IntentType, lookIntent c.intent_distribution i =
      (c.queries.filter (fun q => q.intent = i)).length := by
  unfold mapAllEntities at hc
  have hc' := mem_values_foldl_dinsert (fun e => (createQueryCluster e).id)
    createQueryCluster _ [] c hc
  rcases hc' with h | ⟨x, -, rfl⟩
  · cases h
  · exact createQueryCluster_clusterInv x

/-- C5 (witness): the cluster built for a concrete core entity satisfies the
statistics invariant. -/
theorem c5_cluster_statistics_witness :
    (((((mapAllEntities hubOntology).get ⟨0, by decide⟩).intent_distribution.map
      (fun p => p.2)).sum =
        ((mapAllEntities hubOntology).get ⟨0, by decide⟩).queries.length)) ∧
    ∀ i : IntentType,
      lookIntent ((mapAllEntities hubOntology).get ⟨0, by decide⟩).intent_distribution i =
        (((mapAllEntities hubOntology).get ⟨0, by decide⟩).queries.filter
          (fun q => q.intent = i)).length :=
  c5_cluster_statistics hubOntology _ (List.get_mem _ 0 _)

/-! ## Lemmas about the hub designer -/

theorem sum_len_of_all_one (l : List HubPage)
    (h1 : ∀ p ∈ l, p.internal_links_to.length = 1) :
    (l.map (fun p => p.internal_links_to.length)).sum = l.length := by
  induction l with
  | nil => rfl
  | cons x xs ih =>
    simp only [List.map_cons, List.sum_cons, List.length_cons]
    rw [h1 x (List.mem_cons_self x xs),
      ih (fun p hp => h1 p (List.mem_cons_of_mem x hp))]
    omega

theorem linkCountOf_eq (h : ContentHub) (pillar : HubPage)
    (hp : h.pillar_page = some pillar)
    (hsupp : ∀ p ∈ h.supporting_pages, p.internal_links_to.length = 1)
    (hpil : pillar.internal_links_to.length = h.cluster_pages.length) :
    linkCountOf h = h.cluster_pages.length +
      (h.cluster_pages.map (fun c => c.internal_links_to.length)).sum +
      h.supporting_pages.length := by
  simp only [linkCountOf, allPages, hp, List.map_append, List.sum_append,
    List.map_cons, List.map_nil, List.sum_cons, List.sum_nil]
  rw [sum_len_of_all_one h.supporting_pages hsupp, hpil]
  omega

theorem foldl_extends {α : Type} (step : List String → α → List String)
    (hstep : ∀ links x, ∃ add, step links x = links ++ add) :
    ∀ (l : List α) (links : List String), ∃ ext, l.foldl step links = links ++ ext := by
  intro l
  induction l with
  | nil => intro links; exact ⟨[], by simp⟩
  | cons x xs ih =>
    intro links
    obtain ⟨add, hadd⟩ := hstep links x
    obtain ⟨ext, hext⟩ := ih (links ++ add)
    refine ⟨add ++ ext, ?_⟩
    rw [List.foldl_cons, hadd, hext, List.append_assoc]

theorem designHub_shape (ont : Ontology) (qmap : List (String × QueryCluster))
    (e : Entity) (nid : String) :
    ∃ p, (designHub ont qmap e nid).pillar_page = some p ∧
      p.internal_links_to = (designHub ont qmap e nid).cluster_pages.map (fun c => c.id) ∧
      (designHub ont qmap e nid).internal_link_count =
        (designHub ont qmap e nid).cluster_pages.length +
        ((designHub ont qmap e nid).cluster_pages.map
          (fun c => c.internal_links_to.length)).sum +
        (designHub ont qmap e nid).supporting_pages.length ∧
      (designHub ont qmap e nid).primary_entity_id = e.id ∧
      ((getRelatedEntities ont e.id = []) → (designHub ont qmap e nid).supporting_pages = []) := by
  dsimp only [designHub]
  refine ⟨_, rfl, ?_, ?_, rfl, ?_⟩
  · rw [List.map_map]
    rfl
  · apply linkCountOf_eq
    · rfl
    · intro p hmem
      obtain ⟨x, -, rfl⟩ := List.mem_map.mp hmem
      rfl
    · rw [List.length_map, List.length_map]
  · intro hrel
    rw [createSupportingPages, hrel]
    rfl

theorem mapHubLinksOne_shape (ont : Ontology) (hubs : List ContentHub) (h : ContentHub)
    (p : HubPage) (hp : h.pillar_page = some p) :
    ∃ ext : List String,
      mapHubLinksOne ont hubs h =
        { h with pillar_page := some ({ p with internal_links_to := p.internal_links_to ++ ext }) } := by
  unfold mapHubLinksOne
  cases hge : getEntity ont h.primary_entity_id with
  | none =>
    refine ⟨[], ?_⟩
    have hpp : { p with internal_links_to := p.internal_links_to ++ [] } = p := by
      cases p; simp
    rw [hpp, ← hp]
  | some e =>
    have hstep : ∀ (links : List String) (pr : Entity × Relationship),
        ∃ add, (match hubs.find? (fun oh => oh.primary_entity_id = pr.1.id) with
          | none => links
          | some oh =>
            match oh.pillar_page with
            | none => links
            | some op => if op.id ∈ links then links else links ++ [op.id]) = links ++ add := by
      intro links pr
      cases hfind : hubs.find? (fun oh => oh.primary_entity_id = pr.1.id) with
      | none => exact ⟨[], by simp [hfind]⟩
      | some oh =>
        cases hop : oh.pillar_page with
        | none => exact ⟨[], by simp [hfind, hop]⟩
        | some op =>
          by_cases hin : op.id ∈ links
          · exact ⟨[], by simp [hfind, hop, hin]⟩
          · exact ⟨[op.id], by simp [hfind, hop, hin]⟩
    obtain ⟨ext, hext⟩ := foldl_extends _ hstep (getRelatedEntities ont e.id)
      p.internal_links_to
    refine ⟨ext, ?_⟩
    rw [hp]
    dsimp only
    rw [hext]

theorem mem_designAllHubs_decomp (ont : Ontology) (tax : Taxonomy)
    (qcs : List QueryCluster) (hub : ContentHub)
    (hm : hub ∈ designAllHubs ont tax qcs) :
    ∃ e nid, hub = covFinal (queryMapOf qcs)
      (mapHubLinksOne ont (baseHubs ont tax qcs)
        (designHub ont (queryMapOf qcs) e nid)) := by
  unfold designAllHubs at hm
  obtain ⟨h2, hh2, rfl⟩ := List.mem_map.mp hm
  obtain ⟨h1, hh1, rfl⟩ := List.mem_map.mp hh2
  unfold baseHubs at hh1
  obtain ⟨node, _, hf⟩ := List.mem_filterMap.mp hh1
  by_cases hl : node.level = 1
  · rw [if_pos hl] at hf
    cases hh : node.entity_ids.head? with
    | none => simp only [hh] at hf; exact Option.noConfusion hf
    | some eid =>
      simp only [hh] at hf
      cases hge : getEntity ont eid with
      | none => simp only [hge] at hf; exact Option.noConfusion hf
      | some e =>
        simp only [hge] at hf
        obtain rfl : designHub ont (queryMapOf qcs) e node.id = h1 := Option.some.inj hf
        exact ⟨e, node.id, rfl⟩
  · rw [if_neg hl] at hf; cases hf

theorem designAllHubs_coverage (ont : Ontology) (tax : Taxonomy)
    (qcs : List QueryCluster) (hub : ContentHub)
    (hm : hub ∈ designAllHubs ont tax qcs) :
    hub.coverage_score = calculateCoverage (queryMapOf qcs) hub := by
  unfold designAllHubs at hm
  obtain ⟨h2, -, rfl⟩ := List.mem_map.mp hm
  rfl

/-! ## C7 — hubs for entities with zero related entities -/

/-- C7 (counterexample): the claim ties the omission of the query-coverage
sub-score to the entity having zero related entities.  For an entity with
zero related entities that nevertheless has a query cluster, the hub does
have one pillar page and zero supporting pages, but its coverage score is
the three-way mean including query coverage, not the two-way mean of intent
coverage and link density. -/
theorem c7_zero_related_coverage_counterexample :
    ∃ hub ∈ designAllHubs hubOntology hubTaxonomy [hubCluster],
      getRelatedEntities hubOntology hub.primary_entity_id = [] ∧
      (∃ p, hub.pillar_page = some p) ∧ hub.supporting_pages = [] ∧
      hub.coverage_score ≠ (intentCoverageSub hub + linkDensitySub hub) / 2 := by
  refine ⟨(designAllHubs hubOntology hubTaxonomy [hubCluster]).get ⟨0, by decide⟩,
    List.get_mem _ 0 (by decide), by decide, ⟨_, rfl⟩, by decide, ?_⟩
  have hcov := designAllHubs_coverage hubOntology hubTaxonomy [hubCluster] _
    (List.get_mem _ 0 (by decide :
      0 < (designAllHubs hubOntology hubTaxonomy [hubCluster]).length))
  rw [hcov, calculateCoverage]
  rw [show dget (queryMapOf [hubCluster])
      ((designAllHubs hubOntology hubTaxonomy [hubCluster]).get
        ⟨0, by decide⟩).primary_entity_id = some hubCluster from by decide]
  dsimp only
  have hqv : queryCoverageSub hubCluster
      ((designAllHubs hubOntology hubTaxonomy [hubCluster]).get ⟨0, by decide⟩) = 1 := by
    rw [queryCoverageSub,
      show ((allPages ((designAllHubs hubOntology hubTaxonomy [hubCluster]).get
        ⟨0, by decide⟩)).map (fun p => p.target_queries.length)).sum = 4 from by decide,
      show hubCluster.queries.length = 4 from by decide]
    norm_num
  have hiv : intentCoverageSub
      ((designAllHubs hubOntology hubTaxonomy [hubCluster]).get ⟨0, by decide⟩) = 1/5 := by
    rw [intentCoverageSub,
      show (pyDedup ((allPages ((designAllHubs hubOntology hubTaxonomy [hubCluster]).get
        ⟨0, by decide⟩)).flatMap (fun p => p.target_intents))).length = 1 from by decide]
    norm_num
  have hlv : linkDensitySub
      ((designAllHubs hubOntology hubTaxonomy [hubCluster]).get ⟨0, by decide⟩) = 1/3 := by
    rw [linkDensitySub,
      show ((designAllHubs hubOntology hubTaxonomy [hubCluster]).get
        ⟨0, by decide⟩).internal_link_count = 2 from by decide,
      show (allPages ((designAllHubs hubOntology hubTaxonomy [hubCluster]).get
        ⟨0, by decide⟩)).length = 2 from by decide]
    norm_num
  rw [hqv, hiv, hlv]
  norm_num

/-- C7 (amended): a hub designed for an entity with zero related entities
has exactly one pillar page and zero supporting pages; the query-coverage
sub-score is omitted from `coverage_score` exactly when the entity has no
matching query cluster (an entity with zero related entities but a matching
cluster still gets the three-way mean). -/
theorem c7_hub_pages_and_coverage (ont : Ontology) (tax : Taxonomy)
    (qcs : List QueryCluster) (hub : ContentHub)
    (hm : hub ∈ designAllHubs ont tax qcs) :
    (getRelatedEntities ont hub.primary_entity_id = [] →
      (∃ p, hub.pillar_page = some p) ∧ hub.supporting_pages = []) ∧
    (dget (queryMapOf qcs) hub.primary_entity_id = none →
      hub.coverage_score = (intentCoverageSub hub + linkDensitySub hub) / 2) := by
  obtain ⟨e, nid, rfl⟩ := mem_designAllHubs_decomp ont tax qcs hub hm
  obtain ⟨p, hp, -, -, -, hsupp⟩ := designHub_shape ont (queryMapOf qcs) e nid
  obtain ⟨ext, hmlo⟩ := mapHubLinksOne_shape ont (baseHubs ont tax qcs) _ p hp
  rw [hmlo]
  constructor
  · intro hrel
    have hrel' : getRelatedEntities ont e.id = [] := hrel
    exact ⟨⟨{ p with internal_links_to := p.internal_links_to ++ ext }, rfl⟩, hsupp hrel'⟩
  · intro hq
    have hq' : dget (queryMapOf qcs)
        (designHub ont (queryMapOf qcs) e nid).primary_entity_id = none := hq
    show calculateCoverage (queryMapOf qcs) _ = _
    rw [calculateCoverage]
    rw [show dget (queryMapOf qcs)
      ({ designHub ont (queryMapOf qcs) e nid with pillar_page := some ({ p with internal_links_to := p.internal_links_to ++ ext }) } : ContentHub).primary_entity_id = none from hq']
    rfl

/-! ## C10 — internal_link_count counts only intra-hub links -/

/-- C10: for every hub returned by `design_all_hubs`, the stored
`internal_link_count` is the intra-hub total fixed at design time — one link
per cluster page from the pillar, the cluster pages' own link lists, and one
link per supporting page — and the pillar's final link list starts with
exactly the cluster-page ids: the inter-hub pillar ids appended by the
hub-linking pass sit after that prefix and are never added to
`internal_link_count`. -/
theorem c10_link_count_excludes_hub_links (ont : Ontology) (tax : Taxonomy)
    (qcs : List QueryCluster) (hub : ContentHub)
    (hm : hub ∈ designAllHubs ont tax qcs) :
    ∃ p, hub.pillar_page = some p ∧
      hub.internal_link_count =
        hub.cluster_pages.length +
        (hub.cluster_pages.map (fun c => c.internal_links_to.length)).sum +
        hub.supporting_pages.length ∧
      p.internal_links_to.take hub.cluster_pages.length =
        hub.cluster_pages.map (fun c => c.id) := by
  obtain ⟨e, nid, rfl⟩ := mem_designAllHubs_decomp ont tax qcs hub hm
  obtain ⟨p, hp, hlinks, hcount, -, -⟩ := designHub_shape ont (queryMapOf qcs) e nid
  obtain ⟨ext, hmlo⟩ := mapHubLinksOne_shape ont (baseHubs ont tax qcs) _ p hp
  rw [hmlo]
  refine ⟨{ p with internal_links_to := p.internal_links_to ++ ext }, rfl, hcount, ?_⟩
  show (p.internal_links_to ++ ext).take
    (designHub ont (queryMapOf qcs) e nid).cluster_pages.length = _
  have hlen : p.internal_links_to.length =
      (designHub ont (queryMapOf qcs) e nid).cluster_pages.length := by
    rw [hlinks, List.length_map]
  rw [← hlen, List.take_left]
  show p.internal_links_to =
    (designHub ont (queryMapOf qcs) e nid).cluster_pages.map (fun c => c.id)
  exact hlinks

/-! ## Counting lemmas about the taxonomy node dict -/

theorem entityNodeCount_nil (x : String) : entityNodeCount x [] = 0 := rfl

theorem entityNodeCount_cons (x k : String) (v : TaxonomyNode) (rest : NodeDict) :
    entityNodeCount x ((k, v) :: rest) =
      (if x ∈ v.entity_ids then 1 else 0) + entityNodeCount x rest := by
  simp only [entityNodeCount, List.map_cons, List.filter_cons]
  by_cases h : x ∈ v.entity_ids
  · simp [h, Nat.add_comm]
  · simp [h]

theorem entityNodeCount_dinsert_le (x k : String) (v : TaxonomyNode) :
    ∀ d : NodeDict, entityNodeCount x (dinsert d k v) ≤
      entityNodeCount x d + (if x ∈ v.entity_ids then 1 else 0) := by
  intro d
  induction d with
  | nil =>
    rw [show dinsert [] k v = [(k, v)] from rfl, entityNodeCount_cons,
      entityNodeCount_nil]
    omega
  | cons p rest ih =>
    obtain ⟨k', v'⟩ := p
    by_cases hk : k' = k
    · rw [show dinsert ((k', v') :: rest) k v = (k, v) :: rest from by
        simp [dinsert, hk]]
      rw [entityNodeCount_cons, entityNodeCount_cons]
      split_ifs <;> omega
    · rw [show dinsert ((k', v') :: rest) k v = (k', v') :: dinsert rest k v from by
        simp [dinsert, hk]]
      rw [entityNodeCount_cons, entityNodeCount_cons]
      revert ih
      split_ifs <;> intro ih <;> omega

theorem entityNodeCount_dinsert_notmem (x k : String) (v : TaxonomyNode)
    (d : NodeDict) (h : ¬ x ∈ v.entity_ids) :
    entityNodeCount x (dinsert d k v) ≤ entityNodeCount x d := by
  have := entityNodeCount_dinsert_le x k v d
  rw [if_neg h] at this
  omega

theorem findNodeForEntity_none_count (d : NodeDict) (x : String)
    (h : findNodeForEntity d x = none) : entityNodeCount x d = 0 := by
  rw [findNodeForEntity, List.find?_eq_none] at h
  rw [entityNodeCount, List.length_eq_zero, List.filter_eq_nil_iff]
  intro n hn
  simpa using h n hn

/-! ## C9 — single assignment of entities to taxonomy nodes -/

theorem cat_fold_count_le (rootRef : String) :
    ∀ (es : List Entity) (d : NodeDict),
      (∀ x, entityNodeCount x d ≤ 1) →
      (∀ e ∈ es, entityNodeCount e.id d = 0) →
      ((es.map (fun e => e.id)).Nodup) →
      ∀ x, entityNodeCount x
        (es.foldl (fun d e => dinsert d (generateNodeId e.name) (catNodeOf rootRef e)) d) ≤ 1 := by
  intro es
  induction es with
  | nil => intro d h1 _ _ x; exact h1 x
  | cons e rest ih =>
    intro d h1 h0 hnd x
    simp only [List.foldl_cons]
    simp only [List.map_cons, List.nodup_cons] at hnd
    apply ih
    · intro y
      by_cases hy : y ∈ (catNodeOf rootRef e).entity_ids
      · have hy' : y = e.id := by
          simpa [catNodeOf] using hy
        have := entityNodeCount_dinsert_le y (generateNodeId e.name) (catNodeOf rootRef e) d
        rw [if_pos hy] at this
        have h0e := h0 e (List.mem_cons_self e rest)
        rw [hy'] at this ⊢
        omega
      · have := entityNodeCount_dinsert_notmem y (generateNodeId e.name) (catNodeOf rootRef e) d hy
        exact le_trans this (h1 y)
    · intro e' he'
      have hne : e'.id ≠ e.id := by
        intro hc
        exact hnd.1 (hc ▸ List.mem_map_of_mem (fun e => e.id) he')
      have hnm : ¬ e'.id ∈ (catNodeOf rootRef e).entity_ids := by
        simp [catNodeOf, hne]
      have := entityNodeCount_dinsert_notmem e'.id (generateNodeId e.name)
        (catNodeOf rootRef e) d hnm
      have h0' := h0 e' (List.mem_cons_of_mem e he')
      omega
    · exact hnd.2

theorem subcat_inner_count_le (catNode : TaxonomyNode) :
    ∀ (l : List (Entity × Relationship)) (d : NodeDict),
      (∀ x, entityNodeCount x d ≤ 1) →
      ∀ x, entityNodeCount x (l.foldl (subcatIns catNode) d) ≤ 1 := by
  intro l
  induction l with
  | nil => intro d h1 x; exact h1 x
  | cons pr rest ih =>
    intro d h1 x
    simp only [List.foldl_cons]
    apply ih
    intro y
    rw [subcatIns]
    by_cases hc : pr.1.type = .competitor
    · rw [if_pos hc]
      exact h1 y
    · rw [if_neg hc]
      by_cases hf : (findNodeForEntity d pr.1.id).isSome
      · rw [if_pos hf]
        exact h1 y
      · rw [if_neg hf]
        by_cases hy : y ∈ (subcatNodeOf catNode pr.1).entity_ids
        · have hy' : y = pr.1.id := by simpa [subcatNodeOf] using hy
          have hz : entityNodeCount pr.1.id d = 0 :=
            findNodeForEntity_none_count d pr.1.id
              (Option.not_isSome_iff_eq_none.mp hf)
          have := entityNodeCount_dinsert_le y (generateNodeId pr.1.name)
            (subcatNodeOf catNode pr.1) d
          rw [if_pos hy] at this
          rw [hy'] at this ⊢
          omega
        · exact le_trans (entityNodeCount_dinsert_notmem y _ _ d hy) (h1 y)

theorem subcat_fold_count_le (ont : Ontology) :
    ∀ (cats : List TaxonomyNode) (d : NodeDict),
      (∀ x, entityNodeCount x d ≤ 1) →
      ∀ x, entityNodeCount x (cats.foldl (subcatStep ont) d) ≤ 1 := by
  intro cats
  induction cats with
  | nil => intro d h1 x; exact h1 x
  | cons c rest ih =>
    intro d h1 x
    simp only [List.foldl_cons]
    apply ih
    intro y
    rw [subcatStep]
    cases c.entity_ids.head? with
    | none => exact h1 y
    | some primaryId => exact subcat_inner_count_le c _ d h1 y

theorem facetsUpdate_keeps (n : TaxonomyNode) :
    (facetsUpdate n).id = n.id ∧ (facetsUpdate n).parent_id = n.parent_id ∧
    (facetsUpdate n).level = n.level ∧ (facetsUpdate n).entity_ids = n.entity_ids ∧
    (facetsUpdate n).internal_links_to = n.internal_links_to := by
  rw [facetsUpdate]
  split_ifs <;> exact ⟨rfl, rfl, rfl, rfl, rfl⟩

theorem seoUpdate_keeps (brand niche : String) (d : NodeDict) (n : TaxonomyNode) :
    (seoUpdate brand niche d n).id = n.id ∧
    (seoUpdate brand niche d n).parent_id = n.parent_id ∧
    (seoUpdate brand niche d n).level = n.level ∧
    (seoUpdate brand niche d n).entity_ids = n.entity_ids ∧
    (seoUpdate brand niche d n).internal_links_to = n.internal_links_to := by
  rw [seoUpdate]
  dsimp only
  split_ifs <;> exact ⟨rfl, rfl, rfl, rfl, rfl⟩

theorem linksUpdate_keeps (ont : Ontology) (d : NodeDict) (n : TaxonomyNode) :
    (linksUpdate ont d n).id = n.id ∧ (linksUpdate ont d n).parent_id = n.parent_id ∧
    (linksUpdate ont d n).level = n.level ∧
    (linksUpdate ont d n).entity_ids = n.entity_ids :=
  ⟨rfl, rfl, rfl, rfl⟩

theorem entityNodeCount_map_pass (x : String) (g : TaxonomyNode → TaxonomyNode)
    (hg : ∀ n, (g n).entity_ids = n.entity_ids) :
    ∀ d : NodeDict, entityNodeCount x (d.map (fun p => (p.1, g p.2))) =
      entityNodeCount x d := by
  intro d
  induction d with
  | nil => rfl
  | cons p rest ih =>
    obtain ⟨k, v⟩ := p
    simp only [List.map_cons]
    rw [entityNodeCount_cons, entityNodeCount_cons, ih, hg]

theorem entityNodeCount_seoPass (x brand niche : String) (d : NodeDict) :
    entityNodeCount x (seoPass brand niche d) = entityNodeCount x d := by
  rw [seoPass]
  exact entityNodeCount_map_pass x _ (fun m => (seoUpdate_keeps brand niche d m).2.2.2.1) d

theorem entityNodeCount_linksPass (x : String) (ont : Ontology) (d : NodeDict) :
    entityNodeCount x (linksPass ont d) = entityNodeCount x d := by
  rw [linksPass]
  exact entityNodeCount_map_pass x (linksUpdate ont d) (fun m => rfl) d

theorem entityNodeCount_facetsPass (x : String) (d : NodeDict) :
    entityNodeCount x (facetsPass d) = entityNodeCount x d := by
  rw [facetsPass]
  exact entityNodeCount_map_pass x _ (fun m => (facetsUpdate_keeps m).2.2.2.1) d

/-- C9: assuming the ontology's entity ids are distinct (the data-model
invariant), every entity id appears in the `entity_ids` of at most one node
of the built taxonomy: a category node is created per distinct core entity,
and subcategory creation skips any entity already assigned to a node. -/
theorem c9_single_assignment (ont : Ontology) (niche : String)
    (hids : (ont.entities.map (fun e => e.id)).Nodup) :
    ∀ x : String,
      (((taxBuild ont niche).nodes.filter (fun n => x ∈ n.entity_ids)).length ≤ 1) := by
  intro x
  have hsortperm : ∀ (l : List Entity) (acc : List Entity),
      List.Perm (l.foldl insertByCentrality acc) (acc ++ l) := by
    intro l
    induction l with
    | nil => intro acc; simp
    | cons e rest ih =>
      intro acc
      have hins : ∀ acc2 : List Entity, List.Perm (insertByCentrality acc2 e) (e :: acc2) := by
        intro acc2
        induction acc2 with
        | nil => simp [insertByCentrality]
        | cons a as iha =>
          rw [insertByCentrality]
          split_ifs with hgt
          · exact List.Perm.refl _
          · exact iha.cons a |>.trans (List.Perm.swap e a as)
      have h1 : (e :: rest).foldl insertByCentrality acc
          = rest.foldl insertByCentrality (insertByCentrality acc e) := rfl
      rw [h1]
      refine (ih (insertByCentrality acc e)).trans ?_
      refine ((hins acc).append_right rest).trans ?_
      exact List.perm_middle.symm
  have hcatsNodup : (((coreEntitiesSorted ont).take 15).map (fun e : Entity => e.id)).Nodup := by
    have h1 : (ont.entities.filter (fun e => e.type = EntityType.core)).Sublist
        ont.entities := List.filter_sublist _
    have h2 : ((ont.entities.filter (fun e => e.type = EntityType.core)).map
        (fun e : Entity => e.id)).Nodup := hids.sublist (h1.map (fun e : Entity => e.id))
    have h3 : List.Perm (coreEntitiesSorted ont)
        (ont.entities.filter (fun e => e.type = EntityType.core)) := by
      simpa using hsortperm (ont.entities.filter (fun e => e.type = EntityType.core)) []
    have h4 : ((coreEntitiesSorted ont).map (fun e : Entity => e.id)).Nodup :=
      ((h3.map (fun e : Entity => e.id)).nodup_iff).mpr h2
    exact h4.sublist ((List.take_sublist 15 _).map (fun e : Entity => e.id))
  show entityNodeCount x (seoPass ont.brand_name niche (linksPass ont (facetsPass
    (createSubcategoryNodes ont (createCategoryNodes ont
      (createRootNode ont.brand_name niche)))))) ≤ 1
  rw [entityNodeCount_seoPass, entityNodeCount_linksPass, entityNodeCount_facetsPass]
  rw [createSubcategoryNodes]
  apply subcat_fold_count_le
  rw [createCategoryNodes]
  apply cat_fold_count_le _ _ _ _ _ hcatsNodup
  · intro y
    rw [show createRootNode ont.brand_name niche =
      [(generateNodeId niche, rootNodeOf ont.brand_name niche)] from rfl]
    rw [entityNodeCount_cons, entityNodeCount_nil]
    simp [rootNodeOf]
  · intro e _
    rw [show createRootNode ont.brand_name niche =
      [(generateNodeId niche, rootNodeOf ont.brand_name niche)] from rfl]
    rw [entityNodeCount_cons, entityNodeCount_nil]
    simp [rootNodeOf]

/-- C9 witness: the built ontology of `exCfg` has distinct entity ids, and a
concrete entity id lies in the `entity_ids` of at most one node of the built
taxonomy. -/
theorem c9_single_assignment_witness :
    ((exOnt.entities.map (fun e => e.id)).Nodup) ∧
    (((taxBuild exOnt "Project Management Software").nodes.filter
        (fun n => "x" ∈ n.entity_ids)).length ≤ 1) :=
  ⟨by decide, c9_single_assignment exOnt "Project Management Software" (by decide) "x"⟩

/-! ## C6 — cap enforcement -/

theorem computeNodeLinks_le (ont : Ontology) (d : NodeDict) (n : TaxonomyNode) :
    (computeNodeLinks ont d n).length ≤ 10 := by
  show ((pyDedup _).take 10).length ≤ 10
  rw [List.length_take]
  exact min_le_left _ _

theorem createClusterPages_le (e : Entity) (qc : QueryCluster) (hubId : String) :
    (createClusterPages e qc hubId).length ≤ 10 := by
  show ((_ : List HubPage).take 10).length ≤ 10
  rw [List.length_take]
  exact min_le_left _ _

theorem designHub_clusters_le (ont : Ontology) (qmap : List (String × QueryCluster))
    (e : Entity) (nid : String) :
    (designHub ont qmap e nid).cluster_pages.length ≤ 10 := by
  dsimp only [designHub]
  rw [List.length_map]
  cases hq : dget qmap e.id with
  | none => simp
  | some qc => exact createClusterPages_le e qc _

theorem nodeCountP_nil (p : TaxonomyNode → Bool) : nodeCountP p [] = 0 := rfl

theorem nodeCountP_cons (p : TaxonomyNode → Bool) (k : String) (v : TaxonomyNode)
    (rest : NodeDict) :
    nodeCountP p ((k, v) :: rest) = (if p v then 1 else 0) + nodeCountP p rest := by
  simp only [nodeCountP, List.map_cons, List.filter_cons]
  by_cases h : p v
  · simp [h, Nat.add_comm]
  · simp [h]

theorem nodeCountP_dinsert_le (p : TaxonomyNode → Bool) (k : String) (v : TaxonomyNode) :
    ∀ d : NodeDict, nodeCountP p (dinsert d k v) ≤
      nodeCountP p d + (if p v then 1 else 0) := by
  intro d
  induction d with
  | nil =>
    rw [show dinsert ([] : NodeDict) k v = [(k, v)] from rfl, nodeCountP_cons,
      nodeCountP_nil]
    omega
  | cons q rest ih =>
    obtain ⟨k', v'⟩ := q
    by_cases hk : k' = k
    · rw [show dinsert ((k', v') :: rest) k v = (k, v) :: rest from by
        simp [dinsert, hk]]
      rw [nodeCountP_cons, nodeCountP_cons]
      split_ifs <;> omega
    · rw [show dinsert ((k', v') :: rest) k v = (k', v') :: dinsert rest k v from by
        simp [dinsert, hk]]
      rw [nodeCountP_cons, nodeCountP_cons]
      revert ih
      split_ifs <;> intro ih <;> omega

theorem nodeCountP_map_pass (p : TaxonomyNode → Bool) (g : TaxonomyNode → TaxonomyNode)
    (hg : ∀ n, p (g n) = p n) :
    ∀ d : NodeDict, nodeCountP p (d.map (fun q => (q.1, g q.2))) = nodeCountP p d := by
  intro d
  induction d with
  | nil => rfl
  | cons q rest ih =>
    obtain ⟨k, v⟩ := q
    simp only [List.map_cons]
    rw [nodeCountP_cons, nodeCountP_cons, ih, hg]

theorem nodeCountP_level_seoPass (brand niche : String) (d : NodeDict) :
    nodeCountP (fun n => decide (n.level = 1)) (seoPass brand niche d) =
      nodeCountP (fun n => decide (n.level = 1)) d := by
  rw [seoPass]
  exact nodeCountP_map_pass _ (seoUpdate brand niche d)
    (fun m => by
      show decide ((seoUpdate brand niche d m).level = 1) = decide (m.level = 1)
      rw [(seoUpdate_keeps brand niche d m).2.2.1]) d

theorem nodeCountP_level_linksPass (ont : Ontology) (d : NodeDict) :
    nodeCountP (fun n => decide (n.level = 1)) (linksPass ont d) =
      nodeCountP (fun n => decide (n.level = 1)) d := by
  rw [linksPass]
  exact nodeCountP_map_pass (fun n => decide (n.level = 1)) (linksUpdate ont d)
    (fun m => rfl) d

theorem nodeCountP_level_facetsPass (d : NodeDict) :
    nodeCountP (fun n => decide (n.level = 1)) (facetsPass d) =
      nodeCountP (fun n => decide (n.level = 1)) d := by
  rw [facetsPass]
  exact nodeCountP_map_pass _ facetsUpdate
    (fun m => by
      show decide ((facetsUpdate m).level = 1) = decide (m.level = 1)
      rw [(facetsUpdate_keeps m).2.2.1]) d

theorem cat_fold_countP_le (p : TaxonomyNode → Bool) (rootRef : String) :
    ∀ (es : List Entity) (d : NodeDict),
      nodeCountP p (es.foldl (fun d e =>
        dinsert d (generateNodeId e.name) (catNodeOf rootRef e)) d) ≤
        nodeCountP p d + es.length := by
  intro es
  induction es with
  | nil => intro d; simp
  | cons e rest ih =>
    intro d
    simp only [List.foldl_cons, List.length_cons]
    refine le_trans (ih _) ?_
    have h1 := nodeCountP_dinsert_le p (generateNodeId e.name) (catNodeOf rootRef e) d
    have h2 : (if p (catNodeOf rootRef e) then 1 else 0) ≤ 1 := by split_ifs <;> omega
    omega

theorem subcat_inner_countP_le (p : TaxonomyNode → Bool)
    (hp : ∀ c re, p (subcatNodeOf c re) = false) (catNode : TaxonomyNode) :
    ∀ (l : List (Entity × Relationship)) (d : NodeDict),
      nodeCountP p (l.foldl (subcatIns catNode) d) ≤ nodeCountP p d := by
  intro l
  induction l with
  | nil => intro d; exact le_refl _
  | cons pr rest ih =>
    intro d
    simp only [List.foldl_cons]
    refine le_trans (ih _) ?_
    rw [subcatIns]
    split_ifs with h1 h2
    · exact le_refl _
    · exact le_refl _
    · have hle := nodeCountP_dinsert_le p (generateNodeId pr.1.name)
        (subcatNodeOf catNode pr.1) d
      rw [hp catNode pr.1] at hle
      simpa using hle

theorem subcat_fold_countP_le (p : TaxonomyNode → Bool)
    (hp : ∀ c re, p (subcatNodeOf c re) = false) (ont : Ontology) :
    ∀ (cats : List TaxonomyNode) (d : NodeDict),
      nodeCountP p (cats.foldl (subcatStep ont) d) ≤ nodeCountP p d := by
  intro cats
  induction cats with
  | nil => intro d; exact le_refl _
  | cons c rest ih =>
    intro d
    simp only [List.foldl_cons]
    refine le_trans (ih _) ?_
    rw [subcatStep]
    cases c.entity_ids.head? with
    | none => exact le_refl _
    | some primaryId => exact subcat_inner_countP_le p hp c _ d

/-- C6: cap enforcement.  Every node of any built taxonomy carries at most 10
internal links, every hub designed by `design_all_hubs` has at most 10
cluster pages, and any built taxonomy has at most 15 level-1 category
nodes. -/
theorem c6_caps (ont : Ontology) (tax : Taxonomy) (qcs : List QueryCluster)
    (niche : String) :
    (∀ n ∈ (taxBuild ont niche).nodes, n.internal_links_to.length ≤ 10) ∧
    (∀ hub ∈ designAllHubs ont tax qcs, hub.cluster_pages.length ≤ 10) ∧
    (((taxBuild ont niche).nodes.filter (fun n => n.level = 1)).length ≤ 15) := by
  refine ⟨?_, ?_, ?_⟩
  · intro n hn
    have hn' : n ∈ (seoPass ont.brand_name niche (linksPass ont (facetsPass
        (createSubcategoryNodes ont (createCategoryNodes ont
          (createRootNode ont.brand_name niche)))))).map (fun p => p.2) := hn
    obtain ⟨q, hq, rfl⟩ := List.mem_map.mp hn'
    rw [seoPass] at hq
    obtain ⟨p, hp, rfl⟩ := List.mem_map.mp hq
    dsimp only
    rw [(seoUpdate_keeps ont.brand_name niche _ p.2).2.2.2.2]
    rw [linksPass] at hp
    obtain ⟨s, hs, rfl⟩ := List.mem_map.mp hp
    dsimp only
    exact computeNodeLinks_le ont _ s.2
  · intro hub hm
    obtain ⟨e, nid, rfl⟩ := mem_designAllHubs_decomp ont tax qcs hub hm
    obtain ⟨p, hp, -, -, -, -⟩ := designHub_shape ont (queryMapOf qcs) e nid
    obtain ⟨ext, hmlo⟩ := mapHubLinksOne_shape ont (baseHubs ont tax qcs) _ p hp
    rw [hmlo]
    exact designHub_clusters_le ont (queryMapOf qcs) e nid
  · show nodeCountP (fun n => decide (n.level = 1)) (seoPass ont.brand_name niche
      (linksPass ont (facetsPass (createSubcategoryNodes ont
        (createCategoryNodes ont (createRootNode ont.brand_name niche)))))) ≤ 15
    rw [nodeCountP_level_seoPass, nodeCountP_level_linksPass, nodeCountP_level_facetsPass]
    have h2 : nodeCountP (fun n => decide (n.level = 1))
        (createCategoryNodes ont (createRootNode ont.brand_name niche)) ≤ 15 := by
      rw [createCategoryNodes]
      refine le_trans (cat_fold_countP_le _ _ _ _) ?_
      have hz : nodeCountP (fun n => decide (n.level = 1))
          (createRootNode ont.brand_name niche) = 0 := by
        rw [show createRootNode ont.brand_name niche =
          [(generateNodeId niche, rootNodeOf ont.brand_name niche)] from rfl,
          nodeCountP_cons, nodeCountP_nil]
        simp [rootNodeOf]
      rw [hz]
      simp only [Nat.zero_add]
      rw [List.length_take]
      exact min_le_left _ _
    rw [createSubcategoryNodes]
    exact le_trans (subcat_fold_countP_le (fun n => decide (n.level = 1))
      (fun c re => by simp [subcatNodeOf]) ont _ _) h2

/-- C6 witness: the caps hold at a concrete built taxonomy and its hubs. -/
theorem c6_caps_witness :
    (((taxBuild hubOntology "pm").nodes.get
        ⟨0, by decide⟩).internal_links_to.length ≤ 10) ∧
    (((designAllHubs hubOntology (taxBuild hubOntology "pm") []).get
        ⟨0, by decide⟩).cluster_pages.length ≤ 10) ∧
    (((taxBuild hubOntology "pm").nodes.filter
        (fun n => n.level = 1)).length ≤ 15) :=
  ⟨(c6_caps hubOntology (taxBuild hubOntology "pm") [] "pm").1 _
      (List.get_mem _ 0 (by decide)),
   (c6_caps hubOntology (taxBuild hubOntology "pm") [] "pm").2.1 _
      (List.get_mem _ 0 (by decide)),
   (c6_caps hubOntology (taxBuild hubOntology "pm") [] "pm").2.2⟩

/-- C7 witness: the hub for the entity with zero related entities and no
query cluster has a pillar page, no supporting pages, and the two-way mean
coverage score. -/
theorem c7_hub_pages_and_coverage_witness :
    (soloHub.pillar_page.isSome = true ∧ soloHub.supporting_pages = []) ∧
    soloHub.coverage_score = (intentCoverageSub soloHub + linkDensitySub soloHub) / 2 := by
  have h := c7_hub_pages_and_coverage hubOntology hubTaxonomy [] soloHub
    (List.get_mem _ 0 (by decide))
  obtain ⟨⟨p, hp⟩, hsupp⟩ := h.1 (by decide)
  refine ⟨⟨?_, hsupp⟩, h.2 (by decide)⟩
  rw [hp]
  rfl

/-- C10 witness: at the concrete hub, the stored link count equals the
intra-hub total and the pillar's links start with the cluster-page ids. -/
theorem c10_link_count_excludes_hub_links_witness :
    c10Hub.internal_link_count =
      c10Hub.cluster_pages.length +
      (c10Hub.cluster_pages.map (fun c => c.internal_links_to.length)).sum +
      c10Hub.supporting_pages.length ∧
    c10Hub.pillar_page.map
        (fun p => p.internal_links_to.take c10Hub.cluster_pages.length) =
      some (c10Hub.cluster_pages.map (fun c => c.id)) := by
  obtain ⟨p, hp, hcount, htake⟩ :=
    c10_link_count_excludes_hub_links hubOntology hubTaxonomy [hubCluster] c10Hub
      (List.get_mem _ 0 (by decide))
  refine ⟨hcount, ?_⟩
  rw [hp]
  exact congrArg some htake

/-! ## C3 — taxonomy tree well-formedness -/

theorem dinsert_notmem_append {α : Type} (k : String) (v : α) :
    ∀ d : List (String × α), (∀ p ∈ d, p.1 ≠ k) → dinsert d k v = d ++ [(k, v)] := by
  intro d
  induction d with
  | nil => intro _; rfl
  | cons p rest ih =>
    intro h
    obtain ⟨k', v'⟩ := p
    rw [dinsert, if_neg (h (k', v') (List.mem_cons_self _ _)),
      List.cons_append, ih (fun q hq => h q (List.mem_cons_of_mem _ hq))]

theorem dget_eq_of_mem_nodup {α : Type} (k : String) (v : α) :
    ∀ d : List (String × α), (d.map (fun p => p.1)).Nodup → (k, v) ∈ d →
      dget d k = some v := by
  intro d
  induction d with
  | nil => intro _ hm; cases hm
  | cons p rest ih =>
    intro hnd hm
    rw [List.map_cons, List.nodup_cons] at hnd
    rcases List.mem_cons.mp hm with heq | hmem
    · rw [dget, List.find?_cons_of_pos _ (show _ from by rw [← heq]; simp), ← heq]
      rfl
    · have hkrest : k ∈ rest.map (fun q => q.1) := List.mem_map_of_mem _ hmem
      have hpk : ¬ p.1 = k := fun hc => hnd.1 (by rw [hc]; exact hkrest)
      rw [dget, List.find?_cons_of_neg _ (by simpa using hpk)]
      exact ih hnd.2 hmem

theorem mem_getRelatedEntities (ont : Ontology) (eid : String)
    (pr : Entity × Relationship) (h : pr ∈ getRelatedEntities ont eid) :
    pr.1 ∈ ont.entities := by
  rw [getRelatedEntities] at h
  obtain ⟨rel, -, hf⟩ := List.mem_filterMap.mp h
  split_ifs at hf
  · obtain ⟨e, he, heq⟩ := Option.map_eq_some'.mp hf
    obtain rfl : e = pr.1 := by rw [← heq]
    exact List.mem_of_find?_eq_some he
  · obtain ⟨e, he, heq⟩ := Option.map_eq_some'.mp hf
    obtain rfl : e = pr.1 := by rw [← heq]
    exact List.mem_of_find?_eq_some he

theorem foldl_insertByCentrality_perm :
    ∀ (l acc : List Entity), List.Perm (l.foldl insertByCentrality acc) (acc ++ l) := by
  intro l
  induction l with
  | nil => intro acc; simp
  | cons e rest ih =>
    intro acc
    have hins : ∀ acc2 : List Entity,
        List.Perm (insertByCentrality acc2 e) (e :: acc2) := by
      intro acc2
      induction acc2 with
      | nil => simp [insertByCentrality]
      | cons a as iha =>
        rw [insertByCentrality]
        split_ifs with hgt
        · exact List.Perm.refl _
        · exact iha.cons a |>.trans (List.Perm.swap e a as)
    have h1 : (e :: rest).foldl insertByCentrality acc
        = rest.foldl insertByCentrality (insertByCentrality acc e) := rfl
    rw [h1]
    refine (ih (insertByCentrality acc e)).trans ?_
    refine ((hins acc).append_right rest).trans ?_
    exact List.perm_middle.symm

theorem transGen_measure {α : Type} (r : α → α → Prop) (f : α → Nat)
    (h : ∀ x y, r x y → f y < f x) :
    ∀ a b, Relation.TransGen r a b → f b < f a := by
  intro a b htg
  induction htg with
  | single hr => exact h _ _ hr
  | tail _ hr ih => exact lt_trans (h _ _ hr) ih

theorem filter_parentless_len (d : NodeDict) (rk : String)
    (hnd : (d.map (fun p => p.1)).Nodup)
    (hP : ∀ kn ∈ d, (kn : String × TaxonomyNode).2.parent_id = none → kn.1 = rk)
    (r : TaxonomyNode) (hhead : d.head? = some (rk, r)) (hrp : r.parent_id = none) :
    ((d.map (fun p => p.2)).filter (fun n => n.parent_id = none)).length = 1 := by
  cases d with
  | nil => exact Option.noConfusion hhead
  | cons p tl =>
    have hp : p = (rk, r) := by simpa using hhead
    subst hp
    show ((r :: tl.map (fun p => p.2)).filter (fun n => n.parent_id = none)).length = 1
    rw [List.filter_cons_of_pos (by simp [hrp])]
    have hnil : (tl.map (fun p => p.2)).filter (fun n => n.parent_id = none) = [] := by
      rw [List.filter_eq_nil_iff]
      intro n hn
      obtain ⟨q, hq, rfl⟩ := List.mem_map.mp hn
      intro hqn
      have hqn' : q.2.parent_id = none := by simpa using hqn
      have hqk : q.1 = rk := hP q (List.mem_cons_of_mem _ hq) hqn'
      rw [List.map_cons, List.nodup_cons] at hnd
      have hmem1 : q.1 ∈ List.map (fun p => p.1) tl := List.mem_map_of_mem _ hq
      rw [hqk] at hmem1
      exact hnd.1 hmem1
    rw [hnil]
    rfl

theorem taxInv_root (ont : Ontology) (niche : String) :
    taxInv ont niche (createRootNode ont.brand_name niche) := by
  refine ⟨?_, ?_, ?_, ?_, ?_, ?_⟩
  · show ([(generateNodeId niche, rootNodeOf ont.brand_name niche)].map
      (fun p => p.1)).Nodup
    simp
  · intro kn hkn
    have hk : kn = (generateNodeId niche, rootNodeOf ont.brand_name niche) := by
      simpa [createRootNode, dinsert] using hkn
    rw [hk]
    rfl
  · exact ⟨rootNodeOf ont.brand_name niche, rfl, rfl, rfl⟩
  · intro kn hkn _
    have hk : kn = (generateNodeId niche, rootNodeOf ont.brand_name niche) := by
      simpa [createRootNode, dinsert] using hkn
    rw [hk]
  · intro kn hkn hne
    have hk : kn = (generateNodeId niche, rootNodeOf ont.brand_name niche) := by
      simpa [createRootNode, dinsert] using hkn
    exact absurd (congrArg (fun q : String × TaxonomyNode => q.1) hk) hne
  · intro kn hkn pid hpid
    have hk : kn = (generateNodeId niche, rootNodeOf ont.brand_name niche) := by
      simpa [createRootNode, dinsert] using hkn
    rw [hk] at hpid
    exact Option.noConfusion hpid

theorem taxInv_append (ont : Ontology) (niche : String) (d : NodeDict)
    (hinv : taxInv ont niche d) (e : Entity) (he : e ∈ ont.entities)
    (n : TaxonomyNode)
    (hid : n.id = generateNodeId e.name)
    (heids : n.entity_ids = [e.id])
    (_hnr : generateNodeId e.name ≠ generateNodeId niche)
    (pid : String) (hpid : n.parent_id = some pid)
    (km : String × TaxonomyNode) (hkm : km ∈ d) (hkmk : km.1 = pid)
    (hkml : km.2.level < n.level)
    (hfresh : ∀ p ∈ d, p.1 ≠ generateNodeId e.name) :
    taxInv ont niche (d ++ [(generateNodeId e.name, n)]) := by
  obtain ⟨h1, h2, h3, h4, h5, h6⟩ := hinv
  refine ⟨?_, ?_, ?_, ?_, ?_, ?_⟩
  · rw [List.map_append, List.nodup_append]
    refine ⟨h1, List.nodup_singleton _, ?_⟩
    intro a ha hb
    obtain ⟨p, hp, hpa⟩ := List.mem_map.mp ha
    have hb' : a = generateNodeId e.name := by simpa using hb
    exact hfresh p hp (hpa.trans hb')
  · intro kn hkn
    rcases List.mem_append.mp hkn with hold | hnew
    · exact h2 kn hold
    · have hk : kn = (generateNodeId e.name, n) := by simpa using hnew
      rw [hk]
      exact hid
  · obtain ⟨r, hh, hrp, hrl⟩ := h3
    cases d with
    | nil => exact Option.noConfusion hh
    | cons p tl =>
      have hp : p = (generateNodeId niche, r) := by simpa using hh
      refine ⟨r, ?_, hrp, hrl⟩
      rw [List.cons_append, List.head?_cons, hp]
  · intro kn hkn hpn
    rcases List.mem_append.mp hkn with hold | hnew
    · exact h4 kn hold hpn
    · have hk : kn = (generateNodeId e.name, n) := by simpa using hnew
      rw [hk] at hpn
      rw [hpid] at hpn
      exact Option.noConfusion hpn
  · intro kn hkn hkne
    rcases List.mem_append.mp hkn with hold | hnew
    · exact h5 kn hold hkne
    · have hk : kn = (generateNodeId e.name, n) := by simpa using hnew
      rw [hk]
      exact ⟨e, he, rfl, heids⟩
  · intro kn hkn pid' hpid'
    rcases List.mem_append.mp hkn with hold | hnew
    · obtain ⟨km', hkm', hkmk', hkml'⟩ := h6 kn hold pid' hpid'
      exact ⟨km', List.mem_append_left _ hkm', hkmk', hkml'⟩
    · have hk : kn = (generateNodeId e.name, n) := by simpa using hnew
      rw [hk] at hpid' ⊢
      have hpp : pid' = pid := by
        rw [hpid] at hpid'
        exact (Option.some.inj hpid').symm
      refine ⟨km, List.mem_append_left _ hkm, ?_, hkml⟩
      rw [hkmk, hpp]

theorem taxInv_cat_fold (ont : Ontology) (niche : String)
    (hne : ∀ e ∈ ont.entities, generateNodeId e.name ≠ generateNodeId niche)
    (hinj : ∀ e1 ∈ ont.entities, ∀ e2 ∈ ont.entities,
      generateNodeId e1.name = generateNodeId e2.name → e1 = e2) :
    ∀ (es : List Entity) (d : NodeDict),
      (∀ e ∈ es, e ∈ ont.entities) → es.Nodup →
      (∀ e ∈ es, ∀ p ∈ d, p.1 ≠ generateNodeId e.name) →
      taxInv ont niche d →
      taxInv ont niche (es.foldl (fun d e =>
        dinsert d (generateNodeId e.name) (catNodeOf (generateNodeId niche) e)) d) := by
  intro es
  induction es with
  | nil => intro d _ _ _ hinv; exact hinv
  | cons e rest ih =>
    intro d hsub hnd hfresh hinv
    simp only [List.foldl_cons]
    rw [List.nodup_cons] at hnd
    have hee : e ∈ ont.entities := hsub e (List.mem_cons_self e rest)
    have hfr : ∀ p ∈ d, p.1 ≠ generateNodeId e.name :=
      fun p hp => hfresh e (List.mem_cons_self e rest) p hp
    rw [dinsert_notmem_append (generateNodeId e.name)
      (catNodeOf (generateNodeId niche) e) d hfr]
    have hroot : ∃ r : TaxonomyNode, (generateNodeId niche, r) ∈ d ∧ r.level = 0 := by
      obtain ⟨r, hh, -, hrl⟩ := hinv.2.2.1
      cases d with
      | nil => exact Option.noConfusion hh
      | cons p tl =>
        have hp : p = (generateNodeId niche, r) := by simpa using hh
        exact ⟨r, by rw [← hp]; exact List.mem_cons_self _ _, hrl⟩
    obtain ⟨r, hrmem, hrl⟩ := hroot
    have hinv' := taxInv_append ont niche d hinv e hee
      (catNodeOf (generateNodeId niche) e) rfl rfl (hne e hee)
      (generateNodeId niche) rfl (generateNodeId niche, r) hrmem rfl
      (by show r.level < 1; rw [hrl]; exact Nat.zero_lt_one) hfr
    refine ih _ (fun e' he' => hsub e' (List.mem_cons_of_mem e he')) hnd.2 ?_ hinv'
    intro e' he' p hp
    rcases List.mem_append.mp hp with hold | hnew
    · exact hfresh e' (List.mem_cons_of_mem e he') p hold
    · have hk : p = (generateNodeId e.name, catNodeOf (generateNodeId niche) e) := by
        simpa using hnew
      rw [hk]
      intro hc
      have heq : e = e' := hinj e hee e' (hsub e' (List.mem_cons_of_mem e he')) hc
      exact hnd.1 (by rw [heq]; exact he')

theorem taxInv_subcat_inner (ont : Ontology) (niche : String)
    (hne : ∀ e ∈ ont.entities, generateNodeId e.name ≠ generateNodeId niche)
    (hinj : ∀ e1 ∈ ont.entities, ∀ e2 ∈ ont.entities,
      generateNodeId e1.name = generateNodeId e2.name → e1 = e2)
    (catNode : TaxonomyNode) (hlev : catNode.level = 1) :
    ∀ (l : List (Entity × Relationship)) (d : NodeDict),
      (∀ pr ∈ l, (pr : Entity × Relationship).1 ∈ ont.entities) →
      (catNode.id, catNode) ∈ d →
      taxInv ont niche d →
      taxInv ont niche (l.foldl (subcatIns catNode) d) ∧
      ∃ tl, l.foldl (subcatIns catNode) d = d ++ tl := by
  intro l
  induction l with
  | nil => intro d _ _ hinv; exact ⟨hinv, [], by simp⟩
  | cons pr rest ih =>
    intro d hents hcm hinv
    simp only [List.foldl_cons]
    have hstep : taxInv ont niche (subcatIns catNode d pr) ∧
        ∃ tl, subcatIns catNode d pr = d ++ tl := by
      rw [subcatIns]
      split_ifs with h1 h2
      · exact ⟨hinv, [], by simp⟩
      · exact ⟨hinv, [], by simp⟩
      · have hpr1 : pr.1 ∈ ont.entities := hents pr (List.mem_cons_self pr rest)
        have hfresh : ∀ p ∈ d, p.1 ≠ generateNodeId pr.1.name := by
          intro p hp hcontra
          have hnotroot : p.1 ≠ generateNodeId niche := by
            rw [hcontra]
            exact hne pr.1 hpr1
          obtain ⟨e', he', hk, hids⟩ := hinv.2.2.2.2.1 p hp hnotroot
          have hee : e' = pr.1 := hinj e' he' pr.1 hpr1 (by rw [← hk]; exact hcontra)
          have hnone : findNodeForEntity d pr.1.id = none :=
            Option.not_isSome_iff_eq_none.mp h2
          rw [findNodeForEntity, List.find?_eq_none] at hnone
          have hmm : pr.1.id ∈ p.2.entity_ids := by
            rw [hids, hee]
            exact List.mem_singleton_self _
          exact absurd hmm (by simpa using hnone p.2 (List.mem_map_of_mem _ hp))
        rw [dinsert_notmem_append (generateNodeId pr.1.name)
          (subcatNodeOf catNode pr.1) d hfresh]
        refine ⟨taxInv_append ont niche d hinv pr.1 hpr1 (subcatNodeOf catNode pr.1)
          rfl rfl (hne pr.1 hpr1) catNode.id rfl (catNode.id, catNode) hcm rfl
          ?_ hfresh,
          [(generateNodeId pr.1.name, subcatNodeOf catNode pr.1)], rfl⟩
        show catNode.level < 2
        rw [hlev]
        exact Nat.one_lt_two
    obtain ⟨hinv', tl0, htl0⟩ := hstep
    have hrest := ih (subcatIns catNode d pr)
      (fun q hq => hents q (List.mem_cons_of_mem pr hq))
      (by rw [htl0]; exact List.mem_append_left _ hcm) hinv'
    obtain ⟨hfin, tl1, htl1⟩ := hrest
    exact ⟨hfin, tl0 ++ tl1, by rw [htl1, htl0, List.append_assoc]⟩

theorem taxInv_subcat_fold (ont : Ontology) (niche : String)
    (hne : ∀ e ∈ ont.entities, generateNodeId e.name ≠ generateNodeId niche)
    (hinj : ∀ e1 ∈ ont.entities, ∀ e2 ∈ ont.entities,
      generateNodeId e1.name = generateNodeId e2.name → e1 = e2) :
    ∀ (cats : List TaxonomyNode) (d : NodeDict),
      (∀ c ∈ cats, (c : TaxonomyNode).level = 1 ∧ (c.id, c) ∈ d) →
      taxInv ont niche d →
      taxInv ont niche (cats.foldl (subcatStep ont) d) ∧
      ∃ tl, cats.foldl (subcatStep ont) d = d ++ tl := by
  intro cats
  induction cats with
  | nil => intro d _ hinv; exact ⟨hinv, [], by simp⟩
  | cons c rest ih =>
    intro d hc hinv
    simp only [List.foldl_cons]
    have hinner : taxInv ont niche (subcatStep ont d c) ∧
        ∃ tl, subcatStep ont d c = d ++ tl := by
      rw [subcatStep]
      cases c.entity_ids.head? with
      | none => exact ⟨hinv, [], by simp⟩
      | some primaryId =>
        exact taxInv_subcat_inner ont niche hne hinj c
          (hc c (List.mem_cons_self c rest)).1 _ _
          (fun pr hpr => mem_getRelatedEntities ont primaryId pr
            (List.mem_of_mem_take hpr))
          (hc c (List.mem_cons_self c rest)).2 hinv
    obtain ⟨hinv', tl0, htl0⟩ := hinner
    have hrest := ih (subcatStep ont d c)
      (fun c' hc' => ⟨(hc c' (List.mem_cons_of_mem c hc')).1,
        by rw [htl0]; exact List.mem_append_left _ (hc c' (List.mem_cons_of_mem c hc')).2⟩)
      hinv'
    obtain ⟨hfin, tl1, htl1⟩ := hrest
    exact ⟨hfin, tl0 ++ tl1, by rw [htl1, htl0, List.append_assoc]⟩

theorem taxInv_map_pass (ont : Ontology) (niche : String)
    (g : TaxonomyNode → TaxonomyNode)
    (hg : ∀ n, (g n).id = n.id ∧ (g n).parent_id = n.parent_id ∧
      (g n).level = n.level ∧ (g n).entity_ids = n.entity_ids)
    (d : NodeDict) (hinv : taxInv ont niche d) :
    taxInv ont niche (d.map (fun p => (p.1, g p.2))) := by
  obtain ⟨h1, h2, h3, h4, h5, h6⟩ := hinv
  refine ⟨?_, ?_, ?_, ?_, ?_, ?_⟩
  · rw [List.map_map]
    exact h1
  · intro kn hkn
    obtain ⟨p, hp, rfl⟩ := List.mem_map.mp hkn
    show (g p.2).id = p.1
    rw [(hg p.2).1]
    exact h2 p hp
  · obtain ⟨r, hh, hrp, hrl⟩ := h3
    refine ⟨g r, ?_, ?_, ?_⟩
    · rw [List.head?_map, hh]
      rfl
    · rw [(hg r).2.1, hrp]
    · rw [(hg r).2.2.1, hrl]
  · intro kn hkn hpn
    obtain ⟨p, hp, rfl⟩ := List.mem_map.mp hkn
    dsimp only at hpn ⊢
    have hpn' : p.2.parent_id = none := by
      rw [← (hg p.2).2.1]
      exact hpn
    exact h4 p hp hpn'
  · intro kn hkn hnr
    obtain ⟨p, hp, rfl⟩ := List.mem_map.mp hkn
    dsimp only at hnr ⊢
    obtain ⟨e, he, hk, hids⟩ := h5 p hp hnr
    exact ⟨e, he, hk, by rw [(hg p.2).2.2.2]; exact hids⟩
  · intro kn hkn pid hpid
    obtain ⟨p, hp, rfl⟩ := List.mem_map.mp hkn
    dsimp only at hpid ⊢
    have hpid' : p.2.parent_id = some pid := by
      rw [← (hg p.2).2.1]
      exact hpid
    obtain ⟨km, hkm, hkmk, hkml⟩ := h6 p hp pid hpid'
    refine ⟨(km.1, g km.2), List.mem_map_of_mem _ hkm, hkmk, ?_⟩
    show (g km.2).level < (g p.2).level
    rw [(hg km.2).2.2.1, (hg p.2).2.2.1]
    exact hkml

theorem taxInv_tree_conclusions (ont : Ontology) (niche : String) (d : NodeDict)
    (hinv : taxInv ont niche d) (t : Taxonomy)
    (ht : t.nodes = d.map (fun p => p.2)) :
    ((t.nodes.filter (fun n => n.parent_id = none)).length = 1) ∧
    (∀ n ∈ t.nodes, ∀ pid, n.parent_id = some pid →
      ∃ m ∈ t.nodes, m.id = pid) ∧
    (∀ a, ¬ Relation.TransGen (parentStep t) a a) := by
  obtain ⟨h1, h2, h3, h4, h5, h6⟩ := hinv
  obtain ⟨r, hh, hrp, hrl⟩ := h3
  refine ⟨?_, ?_, ?_⟩
  · rw [ht]
    exact filter_parentless_len d (generateNodeId niche) h1 h4 r hh hrp
  · intro n hn pid hpid
    rw [ht] at hn
    obtain ⟨kn, hkn, rfl⟩ := List.mem_map.mp hn
    obtain ⟨km, hkm, hkmk, -⟩ := h6 kn hkn pid hpid
    refine ⟨km.2, ?_, ?_⟩
    · rw [ht]
      exact List.mem_map_of_mem _ hkm
    · rw [h2 km hkm]
      exact hkmk
  · intro a htg
    have key : ∀ x y, parentStep t x y →
        (fun s => match dget d s with | some n => n.level | none => 0) y <
        (fun s => match dget d s with | some n => n.level | none => 0) x := by
      intro x y hxy
      obtain ⟨n, hn, hna, hnb⟩ := hxy
      rw [ht] at hn
      obtain ⟨kn, hkn, rfl⟩ := List.mem_map.mp hn
      have hxk : kn.1 = x := by
        rw [← h2 kn hkn]
        exact hna
      obtain ⟨km, hkm, hkmk, hkml⟩ := h6 kn hkn y hnb
      have hdx : dget d x = some kn.2 := by
        rw [← hxk]
        exact dget_eq_of_mem_nodup kn.1 kn.2 d h1 hkn
      have hdy : dget d y = some km.2 := by
        rw [← hkmk]
        exact dget_eq_of_mem_nodup km.1 km.2 d h1 hkm
      dsimp only
      rw [hdx, hdy]
      exact hkml
    exact absurd (transGen_measure (parentStep t) _ key a a htg) (lt_irrefl _)

/-- C3 is refuted on the implemented id generator: with niche "tools" and a
core entity also named "tools", the category node overwrites the root under
the same node id.  The built taxonomy then has zero parentless nodes, its
single node is its own parent, and that node's id is its own ancestor under
the parent relation. -/
theorem c3_tree_counterexample :
    ((((taxBuild toolsOntology "tools").nodes.filter
        (fun n => n.parent_id = none)).length = 0) ∧
      (∃ n ∈ (taxBuild toolsOntology "tools").nodes, n.parent_id = some n.id)) ∧
    Relation.TransGen (parentStep (taxBuild toolsOntology "tools"))
      (generateNodeId "tools") (generateNodeId "tools") := by
  refine ⟨⟨by decide, ⟨(taxBuild toolsOntology "tools").nodes.get ⟨0, by decide⟩,
    List.get_mem _ 0 (by decide), by decide⟩⟩, ?_⟩
  exact Relation.TransGen.single
    ⟨(taxBuild toolsOntology "tools").nodes.get ⟨0, by decide⟩,
      List.get_mem _ 0 (by decide), by decide, by decide⟩

/-- C3 (amended): tree well-formedness holds whenever the node ids generated
from the niche and the entity names are pairwise distinct (no
`_generate_node_id` collision).  Then exactly one node is parentless, every
parent pointer resolves to a node of the taxonomy, and no node id is its own
ancestor under the parent relation. -/
theorem c3_taxonomy_tree (ont : Ontology) (niche : String)
    (H : ((niche :: ont.entities.map (fun e => e.name)).map generateNodeId).Nodup) :
    (((taxBuild ont niche).nodes.filter (fun n => n.parent_id = none)).length = 1) ∧
    (∀ n ∈ (taxBuild ont niche).nodes, ∀ pid, n.parent_id = some pid →
      ∃ m ∈ (taxBuild ont niche).nodes, m.id = pid) ∧
    (∀ a, ¬ Relation.TransGen (parentStep (taxBuild ont niche)) a a) := by
  rw [List.map_cons, List.nodup_cons, List.map_map] at H
  obtain ⟨Hnr, Hnd⟩ := H
  have hne : ∀ e ∈ ont.entities, generateNodeId e.name ≠ generateNodeId niche := by
    intro e he hc
    exact Hnr (by rw [← hc]; exact List.mem_map_of_mem _ he)
  have hinj : ∀ e1 ∈ ont.entities, ∀ e2 ∈ ont.entities,
      generateNodeId e1.name = generateNodeId e2.name → e1 = e2 :=
    fun e1 h1 e2 h2 heq => List.inj_on_of_nodup_map Hnd h1 h2 heq
  have hEntsNodup : ont.entities.Nodup := Hnd.of_map
  have hperm : List.Perm (coreEntitiesSorted ont)
      (ont.entities.filter (fun e => e.type = EntityType.core)) := by
    simpa using foldl_insertByCentrality_perm
      (ont.entities.filter (fun e => e.type = EntityType.core)) []
  have hsub : ∀ e ∈ (coreEntitiesSorted ont).take 15, e ∈ ont.entities := by
    intro e he
    exact List.mem_of_mem_filter (hperm.mem_iff.mp (List.mem_of_mem_take he))
  have hesNodup : ((coreEntitiesSorted ont).take 15).Nodup :=
    ((hperm.nodup_iff.mpr (hEntsNodup.sublist (List.filter_sublist _)))).sublist
      (List.take_sublist 15 _)
  have hinv1 := taxInv_root ont niche
  have hfresh0 : ∀ e ∈ (coreEntitiesSorted ont).take 15,
      ∀ p ∈ createRootNode ont.brand_name niche, p.1 ≠ generateNodeId e.name := by
    intro e he p hp
    have hp' : p = (generateNodeId niche, rootNodeOf ont.brand_name niche) := by
      simpa [createRootNode, dinsert] using hp
    rw [hp']
    exact fun hc => hne e (hsub e he) hc.symm
  have hinv2 : taxInv ont niche (createCategoryNodes ont
      (createRootNode ont.brand_name niche)) := by
    exact taxInv_cat_fold ont niche hne hinj _ _ hsub hesNodup hfresh0 hinv1
  have hcatsmem : ∀ c ∈ ((createCategoryNodes ont
        (createRootNode ont.brand_name niche)).map
      (fun p => p.2)).filter (fun n => n.level = 1),
      (c : TaxonomyNode).level = 1 ∧
        (c.id, c) ∈ createCategoryNodes ont (createRootNode ont.brand_name niche) := by
    intro c hc
    obtain ⟨hcm, hcl⟩ := List.mem_filter.mp hc
    refine ⟨by simpa using hcl, ?_⟩
    obtain ⟨p, hp, rfl⟩ := List.mem_map.mp hcm
    rw [hinv2.2.1 p hp]
    exact hp
  have hinv3 : taxInv ont niche (createSubcategoryNodes ont
      (createCategoryNodes ont (createRootNode ont.brand_name niche))) := by
    rw [createSubcategoryNodes]
    exact (taxInv_subcat_fold ont niche hne hinj _ _ hcatsmem hinv2).1
  have hinv4 : taxInv ont niche (facetsPass (createSubcategoryNodes ont
      (createCategoryNodes ont (createRootNode ont.brand_name niche)))) := by
    rw [facetsPass]
    exact taxInv_map_pass ont niche facetsUpdate
      (fun n => ⟨(facetsUpdate_keeps n).1, (facetsUpdate_keeps n).2.1,
        (facetsUpdate_keeps n).2.2.1, (facetsUpdate_keeps n).2.2.2.1⟩) _ hinv3
  have hinv5 : taxInv ont niche (linksPass ont (facetsPass (createSubcategoryNodes ont
      (createCategoryNodes ont (createRootNode ont.brand_name niche))))) := by
    rw [linksPass]
    exact taxInv_map_pass ont niche
      (linksUpdate ont (facetsPass (createSubcategoryNodes ont
        (createCategoryNodes ont (createRootNode ont.brand_name niche)))))
      (fun n => ⟨rfl, rfl, rfl, rfl⟩) _ hinv4
  have hinv6 : taxInv ont niche (seoPass ont.brand_name niche
      (linksPass ont (facetsPass (createSubcategoryNodes ont
        (createCategoryNodes ont (createRootNode ont.brand_name niche)))))) := by
    rw [seoPass]
    exact taxInv_map_pass ont niche
      (seoUpdate ont.brand_name niche (linksPass ont (facetsPass
        (createSubcategoryNodes ont (createCategoryNodes ont
          (createRootNode ont.brand_name niche))))))
      (fun n => ⟨(seoUpdate_keeps _ _ _ n).1, (seoUpdate_keeps _ _ _ n).2.1,
        (seoUpdate_keeps _ _ _ n).2.2.1, (seoUpdate_keeps _ _ _ n).2.2.2.1⟩) _ hinv5
  exact taxInv_tree_conclusions ont niche _ hinv6 (taxBuild ont niche) rfl

/-- C3 witness: the freshness hypothesis holds for the concrete built
ontology, and the built taxonomy has exactly one parentless node. -/
theorem c3_taxonomy_tree_witness :
    ((("Project Management Software" :: exOnt.entities.map (fun e => e.name)).map
        generateNodeId).Nodup) ∧
    (((taxBuild exOnt "Project Management Software").nodes.filter
        (fun n => n.parent_id = none)).length = 1) :=
  ⟨by decide, (c3_taxonomy_tree exOnt "Project Management Software" (by decide)).1⟩

end AIVis
